import Mathlib

set_option maxHeartbeats 1600000
set_option maxRecDepth 8192

/-!
Verification development for the gosc-vm repository: a register-based
virtual machine (cpu package), its assembler backpatch pass (compiler
package) and its lexer (lexer/token packages), shallowly embedded in Lean.

Go runes are modelled as Char and the rune(0) sentinel as nulChar.
Go 64-bit integers are modelled as Int with explicit wrapping (goInt).
The 0xFFFF-byte RAM is a function Nat to Nat together with explicit
bounds checks that mirror Go array-index panics.
-/

namespace Gosc

/-! ## Token table (src/token/token.go) -/

structure Token where
  typ : String
  literal : String
deriving Repr, DecidableEq

/-- Keyword table of the token package, as an association list in source order. -/
def keywords : List (String × String) :=
  [("cmp", "CMP"),
   ("is_integer", "IS_INTEGER"),
   ("is_string", "IS_STRING"),
   ("int2string", "INT2STRING"),
   ("string2int", "STRING2INT"),
   ("store", "STORE"),
   ("print_int", "PRINT_INT"),
   ("print_str", "PRINT_STR"),
   ("add", "ADD"), ("sub", "SUB"), ("mul", "MUL"), ("div", "DIV"),
   ("inc", "INC"), ("dec", "DEC"),
   ("call", "CALL"), ("goto", "GOTO"), ("jmp", "JMP"),
   ("jmpnz", "JMPNZ"), ("jmpz", "JMPZ"), ("ret", "RET"),
   ("push", "PUSH"), ("pop", "POP"),
   ("peek", "PEEK"), ("poke", "POKE"),
   ("exit", "EXIT"), ("concat", "CONCAT"), ("DATA", "DATA"), ("DB", "DB"),
   ("memcpy", "MEMCPY"), ("nop", "NOP"), ("random", "RANDOM"), ("system", "SYSTEM")]

/-- LookupIdentifier of the token package: keyword hit gives its type, miss gives IDENT. -/
def lookupIdentifier (s : String) : String :=
  match keywords.find? (fun p => p.1 == s) with
  | some p => p.2
  | none => "IDENT"

/-! ## Lexer (lexer package) -/

/-- Sentinel character the Go lexer uses for end of input, rune(0). -/
def nulChar : Char := Char.ofNat 0

structure Lexer where
  position : Nat
  readPosition : Nat
  ch : Char
  characters : List Char
deriving Repr, DecidableEq

/-- Character of a rune slice at an index, nulChar when out of range. -/
def charAt (cs : List Char) (i : Nat) : Char := cs.getD i nulChar

/-- readChar of the lexer: load the character at readPosition (rune(0) past the
end) and advance both cursors. -/
def Lexer.readChar (l : Lexer) : Lexer :=
  { position := l.readPosition
    readPosition := l.readPosition + 1
    ch := if l.characters.length ≤ l.readPosition then nulChar
          else charAt l.characters l.readPosition
    characters := l.characters }

/-- New of the lexer package: wrap the rune slice and prime one character. -/
def lexerNew (input : String) : Lexer :=
  Lexer.readChar { position := 0, readPosition := 0, ch := nulChar, characters := input.data }

def isWhitespace (c : Char) : Bool :=
  c == ' ' || c == '\t' || c == '\n' || c == '\r'

def isEmpty (c : Char) : Bool := c == nulChar

def isDigit (c : Char) : Bool := '0' ≤ c && c ≤ '9'

def isHexDigit (c : Char) : Bool :=
  isDigit c || ('a' ≤ c && c ≤ 'f') || ('A' ≤ c && c ≤ 'F') || c == 'x' || c == 'X'

def isIdentifier (c : Char) : Bool :=
  c ≠ ',' && !(isWhitespace c) && !(isEmpty c)

/-- Coherence of a lexer state as produced by lexerNew and readChar: the read
cursor is one past the current position and ch caches the current character
(nulChar past the end). All lemmas below assume it; it is preserved by every
lexer operation. -/
def LValid (l : Lexer) : Prop :=
  l.readPosition = l.position + 1 ∧
  l.ch = (if l.characters.length ≤ l.position then nulChar else charAt l.characters l.position)

instance (l : Lexer) : Decidable (LValid l) := by unfold LValid; infer_instance

/-- skipWhiteSpace loop. In a coherent state the leading bound check can only
fire when ch is already the nulChar sentinel, where the Go loop also stops. -/
def Lexer.skipWhiteSpace (l : Lexer) : Lexer :=
  if l.characters.length + 1 ≤ l.readPosition then l
  else if isWhitespace l.ch then Lexer.skipWhiteSpace l.readChar
  else l
termination_by l.characters.length + 1 - l.readPosition
decreasing_by simp [Lexer.readChar]; omega

/-- Loop of skipComment: consume until a newline or the end-of-input sentinel. -/
def Lexer.skipCommentLoop (l : Lexer) : Lexer :=
  if l.ch = '\n' ∨ l.ch = nulChar then l
  else if l.characters.length + 1 ≤ l.readPosition then l
  else Lexer.skipCommentLoop l.readChar
termination_by l.characters.length + 1 - l.readPosition
decreasing_by simp [Lexer.readChar]; omega

/-- skipComment: consume to end of line, then following whitespace. -/
def Lexer.skipComment (l : Lexer) : Lexer :=
  l.skipCommentLoop.skipWhiteSpace

/-- Loop of readIdentifier: advance while the character extends an identifier. -/
def Lexer.identLoop (l : Lexer) : Lexer :=
  if l.characters.length + 1 ≤ l.readPosition then l
  else if isIdentifier l.ch then Lexer.identLoop l.readChar
  else l
termination_by l.characters.length + 1 - l.readPosition
decreasing_by simp [Lexer.readChar]; omega

/-- Loop of readNumber: advance while the character is in the hex class. -/
def Lexer.numLoop (l : Lexer) : Lexer :=
  if l.characters.length + 1 ≤ l.readPosition then l
  else if isHexDigit l.ch then Lexer.numLoop l.readChar
  else l
termination_by l.characters.length + 1 - l.readPosition
decreasing_by simp [Lexer.readChar]; omega

/-- Slice of a rune list, as Go characters[a:b] read as a string. -/
def sliceStr (cs : List Char) (a b : Nat) : String :=
  String.mk ((cs.drop a).take (b - a))

/-- readIdentifier: the slice from the entry position to where identLoop stops. -/
def Lexer.readIdentifierGo (l : Lexer) : String × Lexer :=
  (sliceStr l.characters l.position l.identLoop.position, l.identLoop)

/-- readNumber: the slice from the entry position to where numLoop stops. -/
def Lexer.readNumber (l : Lexer) : String × Lexer :=
  (sliceStr l.characters l.position l.numLoop.position, l.numLoop)

/-- Loop of readUntilWhitespace. The Go loop does not stop at end of input:
once the cursor is past the end every character read is the non-whitespace
sentinel, so the loop runs forever; that divergence is the none result. -/
def Lexer.untilWsLoop (l : Lexer) : Option Lexer :=
  if isWhitespace l.ch then some l
  else if l.characters.length + 1 ≤ l.readPosition then none
  else Lexer.untilWsLoop l.readChar
termination_by l.characters.length + 1 - l.readPosition
decreasing_by simp [Lexer.readChar]; omega

/-- readUntilWhitespace: slice up to the stopping point, none on divergence. -/
def Lexer.readUntilWhitespace (l : Lexer) : Option (String × Lexer) :=
  (l.untilWsLoop).map (fun l2 => (sliceStr l.characters l.position l2.position, l2))

/-- readLabel is readUntilWhitespace. -/
def Lexer.readLabel (l : Lexer) : Option (String × Lexer) :=
  l.readUntilWhitespace

/-- readDecimal: a hex-class run, then either an INT token or, on a stray
following character, an ILLEGAL token extended to the next whitespace. -/
def Lexer.readDecimal (l : Lexer) : Option (Token × Lexer) :=
  let p := l.readNumber
  if isEmpty p.2.ch || isWhitespace p.2.ch || p.2.ch == ',' then
    some (⟨"INT", p.1⟩, p.2)
  else
    (p.2.readUntilWhitespace).map (fun q => (⟨"ILLEGAL", p.1 ++ q.1⟩, q.2))

/-- Escape translation inside readString: the if chain of the source collapses
to this map since no translated value retriggers a later test. -/
def escTranslate (c : Char) : Char :=
  if c = 'n' then '\n'
  else if c = 'r' then '\r'
  else if c = 't' then '\t'
  else if c = '"' then '"'
  else if c = '\\' then '\\'
  else c

/-- Loop of readString: read a character; stop at a quote; on a backslash read
and translate one more character; append and continue. The Go loop does not
stop at end of input (the sentinel is never a quote), so reaching the end is
divergence, modelled as none. -/
def Lexer.readStringLoop (l : Lexer) (out : String) : Option (String × Lexer) :=
  if (l.readChar).ch = '"' then some (out, l.readChar)
  else if (l.readChar).characters.length + 1 ≤ (l.readChar).readPosition then none
  else if (l.readChar).ch = '\\' then
    Lexer.readStringLoop
      { (l.readChar).readChar with ch := escTranslate (l.readChar).readChar.ch }
      (out.push (escTranslate (l.readChar).readChar.ch))
  else
    Lexer.readStringLoop (l.readChar) (out.push (l.readChar).ch)
termination_by l.characters.length + 2 - l.readPosition
decreasing_by
  all_goals simp_all [Lexer.readChar]
  all_goals omega

/-- readString of the lexer: the decoded body, none on divergence. -/
def Lexer.readStringGo (l : Lexer) : Option (String × Lexer) :=
  l.readStringLoop ""

/-- peekChar: character at readPosition without advancing, rune(0) past the end. -/
def Lexer.peekChar (l : Lexer) : Char :=
  if l.characters.length ≤ l.readPosition then nulChar
  else charAt l.characters l.readPosition

/-- NextToken. The comment branch recurses after skipComment; the recorded
bound (the cursor strictly advances) justifies the recursion and is proved to
always hold in coherent states with ch a hash mark (lemma below), so on such
states this is exactly the Go control flow. none is divergence of an inner
loop (readString or readUntilWhitespace). -/
def Lexer.nextToken (l : Lexer) : Option (Token × Lexer) :=
  let l1 := l.skipWhiteSpace
  if h : l1.ch = '#' ∧ isDigit l1.peekChar = false ∧
      l1.skipComment.characters.length + 1 - l1.skipComment.readPosition
        < l.characters.length + 1 - l.readPosition then
    Lexer.nextToken l1.skipComment
  else if l1.ch = ',' then
    some (⟨",", String.singleton l1.ch⟩, l1.readChar)
  else if l1.ch = '"' then
    (l1.readStringGo).map (fun p => (⟨"STRING", p.1⟩, p.2.readChar))
  else if l1.ch = ':' then
    (l1.readLabel).map (fun p => (⟨"LABEL", p.1⟩, p.2.readChar))
  else if l1.ch = nulChar then
    some (⟨"EOF", ""⟩, l1.readChar)
  else if isDigit l1.ch then
    l1.readDecimal
  else
    let p := l1.readIdentifierGo
    some (⟨lookupIdentifier p.1, p.1⟩, p.2)
termination_by l.characters.length + 1 - l.readPosition
decreasing_by exact h.2.2

/-! ## Go integer model

Go int is 64 bits wide with two-complement wrap-around on arithmetic and
truncation on byte conversion. -/

def goInt (x : Int) : Int := (x + 2 ^ 63).emod (2 ^ 64) - 2 ^ 63

def toTwos (x : Int) : Nat := (x.emod (2 ^ 64)).toNat

def ofTwos (n : Nat) : Int := if n < 2 ^ 63 then (n : Int) else (n : Int) - 2 ^ 64

def goAdd (a b : Int) : Int := goInt (a + b)

def goSub (a b : Int) : Int := goInt (a - b)

def goMul (a b : Int) : Int := goInt (a * b)

/-- Go integer division truncates toward zero; the single overflow case
MinInt64 divided by -1 wraps back to MinInt64, which goInt reproduces. -/
def goDiv (a b : Int) : Int := goInt (Int.tdiv a b)

def goXor (a b : Int) : Int := ofTwos (Nat.xor (toTwos a) (toTwos b))

def goAnd (a b : Int) : Int := ofTwos (Nat.land (toTwos a) (toTwos b))

def goOr (a b : Int) : Int := ofTwos (Nat.lor (toTwos a) (toTwos b))

/-- Conversion byte(v) of a Go int: the low eight bits. -/
def goByte (v : Int) : Nat := (v.emod 256).toNat

/-! ## Printf helpers used by the interpreter -/

def hexDigitCh (n : Nat) : Char :=
  if n < 10 then Char.ofNat (48 + n) else Char.ofNat (55 + n)

/-- Digit recursion for hexStr; the fuel bounds the number of divisions by
16 and n + 1 always suffices. -/
def hexChars : Nat → Nat → List Char
  | 0, _ => []
  | fuel + 1, n =>
      if n < 16 then [hexDigitCh n]
      else hexChars fuel (n / 16) ++ [hexDigitCh (n % 16)]

/-- Upper-case hexadecimal digits of a natural number, no padding. -/
def hexStr (n : Nat) : String := String.mk (hexChars (n + 1) n)

def padZeros (s : String) (w : Nat) : String :=
  String.mk (List.replicate (w - s.length) '0') ++ s

/-- Printf %0wX of a Go int: zero padding to total width w, sign included. -/
def goHexW (v : Int) (w : Nat) : String :=
  if v < 0 then "-" ++ padZeros (hexStr (-v).toNat) (w - 1)
  else padZeros (hexStr v.toNat) w

/-- Output of INT_PRINT: two hex digits below 256, four otherwise. -/
def intPrintStr (v : Int) : String :=
  if v < 256 then goHexW v 2 else goHexW v 4

/-- Decimal digit accumulation for goAtoi. -/
def digitsVal (ds : List Char) : Option Nat :=
  ds.foldl
    (fun acc c =>
      match acc with
      | none => none
      | some n => if isDigit c then some (n * 10 + (c.toNat - 48)) else none)
    (some 0)

def parseDigits (ds : List Char) : Option Nat :=
  if ds.isEmpty then none else digitsVal ds

/-- strconv.Atoi: one optional sign, then one or more decimal digits, whole
string, with the 64-bit range check. -/
def goAtoi (s : String) : Option Int :=
  match s.data with
  | '+' :: ds => (parseDigits ds).bind
      (fun n => if (n : Int) ≤ 2 ^ 63 - 1 then some (n : Int) else none)
  | '-' :: ds => (parseDigits ds).bind
      (fun n => if (n : Int) ≤ 2 ^ 63 then some (-(n : Int)) else none)
  | _ => (parseDigits s.data).bind
      (fun n => if (n : Int) ≤ 2 ^ 63 - 1 then some (n : Int) else none)

/-! ## CPU state (src/cpu/cpu.go) -/

/-- Fatal outcome of an instruction: a trap prints a diagnostic and exits the
process with a non-zero status; panicIdx is a Go runtime array-bounds panic. -/
inductive Fatal where
  | trap (msg : String)
  | panicIdx
deriving Repr, DecidableEq

structure Register where
  i : Int
  s : String
  t : String
deriving Repr, DecidableEq

def getIntMsg : String :=
  "Error: Attempting to call GetInt on a register holding a non-integer value.\n"

def getStringMsg : String :=
  "Error: Attempting to call GetString on a register holding a non-string value.\n"

/-- GetInt: fatal unless the register tag is int. -/
def Register.getIntGo (r : Register) : Except Fatal Int :=
  if r.t ≠ "int" then .error (.trap getIntMsg) else .ok r.i

/-- SetInt: store the value and retag; the string slot is left as is. -/
def Register.setIntGo (r : Register) (v : Int) : Register :=
  { r with i := v, t := "int" }

/-- GetString: fatal unless the register tag is string. -/
def Register.getStringGo (r : Register) : Except Fatal String :=
  if r.t ≠ "string" then .error (.trap getStringMsg) else .ok r.s

/-- SetString: store the value and retag; the int slot is left as is. -/
def Register.setStringGo (r : Register) (v : String) : Register :=
  { r with s := v, t := "string" }

structure Stack where
  entries : List Int
deriving Repr, DecidableEq

def newStack : Stack := ⟨[]⟩

/-- Empty of the stack. -/
def Stack.emptyGo (s : Stack) : Bool := s.entries.length ≤ 0

/-- Push appends at the back of the entries slice. -/
def Stack.push (s : Stack) (value : Int) : Stack := ⟨s.entries ++ [value]⟩

/-- Pop removes the FRONT element of the entries slice; popping an empty
stack is a Go index panic, modelled as none. -/
def Stack.popGo (s : Stack) : Option (Int × Stack) :=
  match s.entries with
  | [] => none
  | x :: rest => some (x, ⟨rest⟩)

structure CPU where
  regs : Nat → Register
  flagZ : Bool
  mem : Nat → Nat
  ip : Int
  stack : Stack

/-- RAM size: the mem array of the CPU has exactly 0xFFFF bytes. -/
def memSize : Nat := 0xFFFF

/-- Read of the mem array; an index outside [0, 0xFFFF) is a Go panic. -/
def memRead (m : Nat → Nat) (a : Int) : Except Fatal Nat :=
  if 0 ≤ a ∧ a < (memSize : Int) then .ok (m a.toNat) else .error .panicIdx

/-- Write of the mem array; an index outside [0, 0xFFFF) is a Go panic. -/
def memWrite (m : Nat → Nat) (a : Int) (v : Nat) : Except Fatal (Nat → Nat) :=
  if 0 ≤ a ∧ a < (memSize : Int) then
    .ok (fun x => if x = a.toNat then v else m x)
  else .error .panicIdx

/-- Access of the 16-entry register array; an index above 15 is a Go panic. -/
def getReg (c : CPU) (n : Nat) : Except Fatal Register :=
  if n < 16 then .ok (c.regs n) else .error .panicIdx

def setReg (c : CPU) (n : Nat) (r : Register) : Except Fatal CPU :=
  if n < 16 then
    .ok { c with regs := fun k => if k = n then r else c.regs k }
  else .error .panicIdx

/-- Reset: every register is SetInt 0 (string slots stay), the instruction
pointer returns to zero and the stack is replaced; memory and the zero flag
are untouched by the source. -/
def resetCPU (c : CPU) : CPU :=
  { c with regs := fun k => (c.regs k).setIntGo 0, ip := 0, stack := newStack }

def zeroRegister : Register := ⟨0, "", ""⟩

/-- NewCPU: the Go zero value of the struct followed by Reset. -/
def newCPU : CPU :=
  resetCPU { regs := fun _ => zeroRegister, flagZ := false, mem := fun _ => 0,
             ip := 0, stack := newStack }

def storeByte (m : Nat → Nat) (a v : Nat) : Nat → Nat :=
  fun x => if x = a then v else m x

/-- Copy loop of LoadBytes: data byte j lands at address i + j. -/
def copyFrom : (Nat → Nat) → List Nat → Nat → (Nat → Nat)
  | m, [], _ => m
  | m, b :: rest, i => copyFrom (storeByte m i b) rest (i + 1)

/-- LoadBytes: Reset, reject an image of 0xFFFF bytes or more with a
diagnostic and a non-zero exit, otherwise copy the bytes from address 0. -/
def loadBytes (c : CPU) (data : List Nat) : Except Fatal CPU :=
  let c0 := resetCPU c
  if memSize ≤ data.length then .error (.trap "Program too large for RAM!\n")
  else .ok { c0 with mem := copyFrom c0.mem data 0 }

/-- CPU holding a program as the run and execute commands build it: a fresh
NewCPU loaded with the image (the fallback branch is never taken for images
below the size bound). -/
def loadedCPU (data : List Nat) : CPU :=
  match loadBytes newCPU data with
  | .ok c => c
  | .error _ => newCPU

/-- Per-step external input: the random source of INT_RANDOM and the captured
output of the process spawned by SYSTEM. The argument-splitting of the
command string only selects which external process runs; since that process
and its output are external they are modelled as this oracle. -/
structure Orac where
  rand : Nat
  sysOut : String → String

/-! ## Fetch helpers -/

def bumpIp (c : CPU) : CPU := { c with ip := c.ip + 1 }

/-- The recurring Go pattern ip++ then read mem[ip]. -/
def nextByte (c : CPU) : Except Fatal (Nat × CPU) := do
  let v ← memRead (bumpIp c).mem (bumpIp c).ip
  .ok (v, bumpIp c)

/-- read2Val: two bytes at ip, little-endian, both skipped. -/
def read2Val (c : CPU) : Except Fatal (Nat × CPU) := do
  let lo ← memRead c.mem c.ip
  let hi ← memRead (bumpIp c).mem (bumpIp c).ip
  .ok (lo + hi * 256, bumpIp (bumpIp c))

/-- String body builder of readString: byte at ip + i appended per step. -/
def readMemChars (c : CPU) : Nat → Nat → Except Fatal String
  | 0, _ => .ok ""
  | n + 1, i => do
      let b ← memRead c.mem (c.ip + (i : Int))
      let rest ← readMemChars c n (i + 1)
      .ok (String.singleton (Char.ofNat b) ++ rest)

/-- readString of the CPU: a two-byte length then that many bytes, the
instruction pointer jumped over the body. -/
def cpuReadString (c : CPU) : Except Fatal (String × CPU) := do
  let p ← read2Val c
  let s ← readMemChars p.2 p.1 0
  .ok (s, { p.2 with ip := p.2.ip + (p.1 : Int) })

/-- Copy loop of MEMCPY: the source loop runs i from 0 while i is below the
length register, so it makes exactly length.toNat iterations; each one resets
either address to 0 once it is at or above 0xFFFF, copies one byte and
advances both addresses. -/
def memcpyLoop (m : Nat → Nat) (dstA srcA : Int) : Nat → Except Fatal (Nat → Nat)
  | 0 => .ok m
  | n + 1 =>
      let d := if (memSize : Int) ≤ dstA then 0 else dstA
      let s := if (memSize : Int) ≤ srcA then 0 else srcA
      do
        let b ← memRead m s
        let m2 ← memWrite m d b
        memcpyLoop m2 (d + 1) (s + 1) n

/-! ## The interpreter switch (Run loop body of the CPU) -/

/-- One iteration of the Run loop before the wrap check: fetch the byte at
ip and dispatch. The Bool is the run flag after the instruction (false only
for EXIT). The String is what the instruction printed on stdout. Each case
mirrors the Go handler, including the exact order of operand fetches,
register reads and bound checks. The debug trace (disabled DEBUG variable)
prints nothing. -/
def execInstr (o : Orac) (c : CPU) : Except Fatal (Bool × CPU × String) := do
  let instruction ← memRead c.mem c.ip
  match instruction with
  | 0x00 =>
      .ok (false, c, "")
  | 0x01 => do
      let p ← nextByte c
      let q ← read2Val (bumpIp p.2)
      let r ← getReg q.2 p.1
      let c2 ← setReg q.2 p.1 (r.setIntGo (q.1 : Int))
      .ok (true, c2, "")
  | 0x02 => do
      let p ← nextByte c
      let r ← getReg p.2 p.1
      let v ← r.getIntGo
      .ok (true, bumpIp p.2, intPrintStr v)
  | 0x03 => do
      let p ← nextByte c
      let r ← getReg p.2 p.1
      let v ← r.getIntGo
      let c2 ← setReg p.2 p.1 (r.setStringGo (toString v))
      .ok (true, bumpIp c2, "")
  | 0x04 => do
      let p ← nextByte c
      let r ← getReg p.2 p.1
      let c2 ← setReg p.2 p.1 (r.setIntGo ((o.rand % 0xffff : Nat) : Int))
      .ok (true, bumpIp c2, "")
  | 0x10 => do
      let q ← read2Val (bumpIp c)
      .ok (true, { q.2 with ip := (q.1 : Int) }, "")
  | 0x11 => do
      let q ← read2Val (bumpIp c)
      .ok (true, if c.flagZ then { q.2 with ip := (q.1 : Int) } else q.2, "")
  | 0x12 => do
      let q ← read2Val (bumpIp c)
      .ok (true, if c.flagZ then q.2 else { q.2 with ip := (q.1 : Int) }, "")
  | 0x13 => do
      let p1 ← nextByte c
      let p2 ← nextByte p1.2
      let p3 ← nextByte p2.2
      let c4 := bumpIp p3.2
      let ra ← getReg c4 p2.1
      let aVal ← ra.getIntGo
      let rb ← getReg c4 p3.1
      let bVal ← rb.getIntGo
      let rr ← getReg c4 p1.1
      let c5 ← setReg c4 p1.1 (rr.setIntGo (goXor aVal bVal))
      .ok (true, c5, "")
  | 0x21 => do
      let p1 ← nextByte c
      let p2 ← nextByte p1.2
      let p3 ← nextByte p2.2
      let c4 := bumpIp p3.2
      let ra ← getReg c4 p2.1
      let aVal ← ra.getIntGo
      let rb ← getReg c4 p3.1
      let bVal ← rb.getIntGo
      let rr ← getReg c4 p1.1
      let c5 ← setReg c4 p1.1 (rr.setIntGo (goAdd aVal bVal))
      .ok (true, c5, "")
  | 0x22 => do
      let p1 ← nextByte c
      let p2 ← nextByte p1.2
      let p3 ← nextByte p2.2
      let c4 := bumpIp p3.2
      let ra ← getReg c4 p2.1
      let aVal ← ra.getIntGo
      let rb ← getReg c4 p3.1
      let bVal ← rb.getIntGo
      let rr ← getReg c4 p1.1
      let c5 ← setReg c4 p1.1 (rr.setIntGo (goSub aVal bVal))
      let rAfter ← getReg c5 p1.1
      .ok (true, if rAfter.i ≤ 0 then { c5 with flagZ := true } else c5, "")
  | 0x23 => do
      let p1 ← nextByte c
      let p2 ← nextByte p1.2
      let p3 ← nextByte p2.2
      let c4 := bumpIp p3.2
      let ra ← getReg c4 p2.1
      let aVal ← ra.getIntGo
      let rb ← getReg c4 p3.1
      let bVal ← rb.getIntGo
      let rr ← getReg c4 p1.1
      let c5 ← setReg c4 p1.1 (rr.setIntGo (goMul aVal bVal))
      .ok (true, c5, "")
  | 0x24 => do
      let p1 ← nextByte c
      let p2 ← nextByte p1.2
      let p3 ← nextByte p2.2
      let c4 := bumpIp p3.2
      let ra ← getReg c4 p2.1
      let aVal ← ra.getIntGo
      let rb ← getReg c4 p3.1
      let bVal ← rb.getIntGo
      if bVal = 0 then
        .error (.trap "Attempting to divide by zero - denying\n")
      else do
        let rr ← getReg c4 p1.1
        let c5 ← setReg c4 p1.1 (rr.setIntGo (goDiv aVal bVal))
        .ok (true, c5, "")
  | 0x25 => do
      let p ← nextByte c
      let r ← getReg p.2 p.1
      let v ← r.getIntGo
      let c2 ← setReg p.2 p.1 (r.setIntGo (goAdd v 1))
      .ok (true, bumpIp c2, "")
  | 0x26 => do
      let p ← nextByte c
      let r ← getReg p.2 p.1
      let v ← r.getIntGo
      let c2 ← setReg p.2 p.1 (r.setIntGo (goSub v 1))
      .ok (true, bumpIp c2, "")
  | 0x27 => do
      let p1 ← nextByte c
      let p2 ← nextByte p1.2
      let p3 ← nextByte p2.2
      let c4 := bumpIp p3.2
      let ra ← getReg c4 p2.1
      let aVal ← ra.getIntGo
      let rb ← getReg c4 p3.1
      let bVal ← rb.getIntGo
      let rr ← getReg c4 p1.1
      let c5 ← setReg c4 p1.1 (rr.setIntGo (goAnd aVal bVal))
      .ok (true, c5, "")
  | 0x28 => do
      let p1 ← nextByte c
      let p2 ← nextByte p1.2
      let p3 ← nextByte p2.2
      let c4 := bumpIp p3.2
      let ra ← getReg c4 p2.1
      let aVal ← ra.getIntGo
      let rb ← getReg c4 p3.1
      let bVal ← rb.getIntGo
      let rr ← getReg c4 p1.1
      let c5 ← setReg c4 p1.1 (rr.setIntGo (goOr aVal bVal))
      .ok (true, c5, "")
  | 0x30 => do
      let p ← nextByte c
      let q ← cpuReadString (bumpIp p.2)
      let r ← getReg q.2 p.1
      let c2 ← setReg q.2 p.1 (r.setStringGo q.1)
      .ok (true, c2, "")
  | 0x31 => do
      let p ← nextByte c
      let r ← getReg p.2 p.1
      let s ← r.getStringGo
      .ok (true, bumpIp p.2, s)
  | 0x32 => do
      let p1 ← nextByte c
      let p2 ← nextByte p1.2
      let p3 ← nextByte p2.2
      let c4 := bumpIp p3.2
      let ra ← getReg c4 p2.1
      let aVal ← ra.getStringGo
      let rb ← getReg c4 p3.1
      let bVal ← rb.getStringGo
      let rr ← getReg c4 p1.1
      let c5 ← setReg c4 p1.1 (rr.setStringGo (aVal ++ bVal))
      .ok (true, c5, "")
  | 0x33 => do
      let p ← nextByte c
      let c2 := bumpIp p.2
      let r ← getReg c2 p.1
      let s ← r.getStringGo
      .ok (true, c2, o.sysOut s)
  | 0x34 => do
      let p ← nextByte c
      let r ← getReg p.2 p.1
      let s ← r.getStringGo
      match goAtoi s with
      | some i => do
          let c2 ← setReg p.2 p.1 (r.setIntGo i)
          .ok (true, bumpIp c2, "")
      | none =>
          .error (.trap ("Failed to convert '" ++ s ++ "' to int: invalid syntax"))
  | 0x40 => do
      let p1 ← nextByte c
      let p2 ← nextByte p1.2
      let c3 := { bumpIp p2.2 with flagZ := false }
      let r1 ← getReg c3 p1.1
      match r1.t with
      | "int" => do
          let v1 ← r1.getIntGo
          let r2 ← getReg c3 p2.1
          let v2 ← r2.getIntGo
          .ok (true, if v1 = v2 then { c3 with flagZ := true } else c3, "")
      | "string" => do
          let s1 ← r1.getStringGo
          let r2 ← getReg c3 p2.1
          let s2 ← r2.getStringGo
          .ok (true, if s1 = s2 then { c3 with flagZ := true } else c3, "")
      | _ => .ok (true, c3, "")
  | 0x41 => do
      let p ← nextByte c
      let q ← read2Val (bumpIp p.2)
      let r ← getReg q.2 p.1
      .ok (true, { q.2 with flagZ := decide (r.t = "int" ∧ r.i = (q.1 : Int)) }, "")
  | 0x42 => do
      let p ← nextByte c
      let q ← cpuReadString (bumpIp p.2)
      let r ← getReg q.2 p.1
      .ok (true, { q.2 with flagZ := decide (r.t = "string" ∧ r.s = q.1) }, "")
  | 0x43 => do
      let p ← nextByte c
      let c2 := bumpIp p.2
      let r ← getReg c2 p.1
      .ok (true, { c2 with flagZ := decide (r.t = "string") }, "")
  | 0x44 => do
      let p ← nextByte c
      let c2 := bumpIp p.2
      let r ← getReg c2 p.1
      .ok (true, { c2 with flagZ := decide (r.t = "int") }, "")
  | 0x50 =>
      .ok (true, bumpIp c, "")
  | 0x51 => do
      let p1 ← nextByte c
      let p2 ← nextByte p1.2
      let c3 := bumpIp p2.2
      let rd ← getReg c3 p1.1
      let c4 ← setReg c3 p2.1 rd
      .ok (true, c4, "")
  | 0x60 => do
      let p1 ← nextByte c
      let p2 ← nextByte p1.2
      let rs ← getReg p2.2 p2.1
      let b ← memRead p2.2.mem rs.i
      let rr ← getReg p2.2 p1.1
      let c3 ← setReg p2.2 p1.1 (rr.setIntGo (b : Int))
      .ok (true, bumpIp c3, "")
  | 0x61 => do
      let p1 ← nextByte c
      let p2 ← nextByte p1.2
      let c3 := bumpIp p2.2
      let rd ← getReg c3 p2.1
      let rs ← getReg c3 p1.1
      let m ← memWrite c3.mem rd.i (goByte rs.i)
      .ok (true, { c3 with mem := m }, "")
  | 0x62 => do
      let p1 ← nextByte c
      let p2 ← nextByte p1.2
      let p3 ← nextByte p2.2
      let c4 := bumpIp p3.2
      let rs ← getReg c4 p2.1
      let srcAddr ← rs.getIntGo
      let rd ← getReg c4 p1.1
      let dstAddr ← rd.getIntGo
      let rl ← getReg c4 p3.1
      let length ← rl.getIntGo
      let m ← memcpyLoop c4.mem dstAddr srcAddr length.toNat
      .ok (true, { c4 with mem := m }, "")
  | 0x70 => do
      let p ← nextByte c
      let c2 := bumpIp p.2
      let r ← getReg c2 p.1
      let v ← r.getIntGo
      .ok (true, { c2 with stack := c2.stack.push v }, "")
  | 0x71 => do
      let p ← nextByte c
      let c2 := bumpIp p.2
      if c2.stack.emptyGo then .error (.trap "Stack Underflow!\n")
      else
        match c2.stack.popGo with
        | some q => do
            let r ← getReg c2 p.1
            let c3 ← setReg c2 p.1 (r.setIntGo q.1)
            .ok (true, { c3 with stack := q.2 }, "")
        | none => .error .panicIdx
  | 0x72 =>
      if c.stack.emptyGo then .error (.trap "Stack Underflow!\n")
      else
        match c.stack.popGo with
        | some q => .ok (true, { c with ip := q.1, stack := q.2 }, "")
        | none => .error .panicIdx
  | 0x73 => do
      let q ← read2Val (bumpIp c)
      .ok (true, { q.2 with stack := q.2.stack.push q.2.ip, ip := (q.1 : Int) }, "")
  | other =>
      .error (.trap ("Unrecognized/Unimplemented opcode " ++ goHexW (other : Int) 2 ++
        " at IP " ++ goHexW c.ip 4 ++ "\n"))

/-- Wrap applied after every instruction: an instruction pointer at or above
0xFFFF returns to 0. -/
def applyWrap (c : CPU) : CPU :=
  if (memSize : Int) ≤ c.ip then { c with ip := 0 } else c

/-- One full iteration of the Run loop: the dispatched instruction followed
by the wrap check. -/
def stepCPU (o : Orac) (c : CPU) : Except Fatal (Bool × CPU × String) :=
  match execInstr o c with
  | .ok (k, c1, s) => .ok (k, applyWrap c1, s)
  | .error e => .error e

/-- Execution state of Run: still running, halted by EXIT, or terminated by
a trap or panic; out is the accumulated stdout. -/
inductive Outcome where
  | running (c : CPU) (out : String)
  | halted (c : CPU) (out : String)
  | fatalErr (e : Fatal) (out : String)

def advanceOutcome (o : Orac) : Outcome → Outcome
  | .running c out =>
      match stepCPU o c with
      | .ok (true, c1, s) => .running c1 (out ++ s)
      | .ok (false, c1, s) => .halted c1 (out ++ s)
      | .error e => .fatalErr e out
  | st => st

/-- n iterations of the Run loop; the oracle stream supplies the external
input of each iteration in turn. -/
def steps (os : Nat → Orac) : Nat → Outcome → Outcome
  | 0, st => st
  | n + 1, st => steps (fun k => os (k + 1)) n (advanceOutcome (os 0) st)

/-- Oracle stream with no randomness and silent external commands; execution
of programs that avoid INT_RANDOM and SYSTEM does not depend on it. -/
def oracZero : Nat → Orac := fun _ => ⟨0, fun _ => ""⟩

/-! ## Observers (constructor views of execution results) -/

def outcomeOut : Outcome → Option String
  | .halted _ out => some out
  | _ => none

def runningIp : Outcome → Option Int
  | .running c _ => some c.ip
  | _ => none

def stepOk : Except Fatal (Bool × CPU × String) → Bool
  | .ok _ => true
  | .error _ => false

def stepTrapMsg : Except Fatal (Bool × CPU × String) → Option String
  | .error (.trap m) => some m
  | _ => none

def stepIp : Except Fatal (Bool × CPU × String) → Option Int
  | .ok (_, c, _) => some c.ip
  | .error _ => none

def stepMemAt (r : Except Fatal (Bool × CPU × String)) (a : Nat) : Option Nat :=
  match r with
  | .ok (_, c, _) => some (c.mem a)
  | .error _ => none

def stepRegAt (r : Except Fatal (Bool × CPU × String)) (n : Nat) : Option Register :=
  match r with
  | .ok (_, c, _) => some (c.regs n)
  | .error _ => none

def stepStack (r : Except Fatal (Bool × CPU × String)) : Option (List Int) :=
  match r with
  | .ok (_, c, _) => some c.stack.entries
  | .error _ => none

/-! ## Backpatch pass of the assembler (Compiler method, src/unnamed/part_000) -/

inductive BPErr where
  | undefLabel (name : String)
  | oob
deriving Repr, DecidableEq

/-- Lookup in the labels map; a missing key yields the Go zero value 0. -/
def labelsLookup (labels : List (String × Nat)) (name : String) : Nat :=
  match labels.find? (fun p => p.1 == name) with
  | some p => p.2
  | none => 0

/-- The backpatch loop: for every recorded fixup, look the label up (missing
gives 0), treat value 0 as the undefined-label error with a non-zero exit,
otherwise split the value into low and high byte and write both, low byte
first. A write past the buffer would be a Go panic (oob). -/
def backpatch (bytecode : List Nat) (labels : List (String × Nat)) :
    List (Nat × String) → Except BPErr (List Nat)
  | [] => .ok bytecode
  | (addr, name) :: rest =>
      let value := labelsLookup labels name
      if value = 0 then .error (.undefLabel name)
      else
        let p1 := value % 256
        let p2 := ((value - p1) / 256) % 256
        if addr + 1 < bytecode.length then
          backpatch ((bytecode.set addr p1).set (addr + 1) p2) labels rest
        else .error .oob

/-! ## Definitions written from the claim wording (comparison targets only) -/

/-- Modelled from the claim wording for MEMCPY: copy n bytes one at a time,
every address used for a read or a write taken modulo 0xFFFF. -/
def memcpyClaim : (Nat → Nat) → Nat → Nat → Nat → (Nat → Nat)
  | m, _, _, 0 => m
  | m, d, s, n + 1 =>
      memcpyClaim (storeByte m (d % memSize) (m (s % memSize))) (d + 1) (s + 1) n

/-- Position of the end of the current line: first index at or after i whose
character is a newline, or the length when the line is last. Comparison
target for the comment rule of the lexer. -/
def lineEnd (cs : List Char) (i : Nat) : Nat :=
  if i < cs.length then
    (if charAt cs i = '\n' then i else lineEnd cs (i + 1))
  else cs.length
termination_by cs.length - i
decreasing_by omega

/-- Character class of the claim wording for register identifiers: neither
whitespace nor a comma. -/
def identClaimCh (c : Char) : Bool := !(isWhitespace c) && c ≠ ','

/-- Scan of readString starting at read index i: true precisely when the scan
reaches a closing quote (a backslash consumes the following character), false
when it falls off the end, where the Go loop diverges. -/
def scanCloses (cs : List Char) (i : Nat) : Bool :=
  if i < cs.length then
    if charAt cs i = '"' then true
    else if charAt cs i = '\\' then scanCloses cs (i + 2)
    else scanCloses cs (i + 1)
  else false
termination_by cs.length - i
decreasing_by all_goals omega

/-- Fuelled body of the quote scan of the claim wording; the position
advances at every step, so any fuel of at least length + 1 - i suffices. -/
def quotesClosedF : Nat → List Char → Nat → Nat → Bool
  | 0, _, _, mode => decide (mode ≠ 1)
  | fuel + 1, cs, i, mode =>
    if i < cs.length then
      if mode = 1 then
        if charAt cs i = '"' then quotesClosedF fuel cs (i + 1) 0
        else if charAt cs i = '\\' then quotesClosedF fuel cs (i + 2) 1
        else quotesClosedF fuel cs (i + 1) 1
      else if mode = 2 then
        if charAt cs i = '\n' then quotesClosedF fuel cs (i + 1) 0
        else quotesClosedF fuel cs (i + 1) 2
      else
        if charAt cs i = '"' then quotesClosedF fuel cs (i + 1) 1
        else if charAt cs i = '#' ∧ isDigit (charAt cs (i + 1)) = false then
          quotesClosedF fuel cs (i + 1) 2
        else quotesClosedF fuel cs (i + 1) 0
    else decide (mode ≠ 1)

/-- Quote scan of the claim wording, as a three-mode walk over the input:
mode 0 (outside every literal) treats a quote as opening a string literal
and a hash mark not followed by a digit as opening a comment; mode 1
(inside a literal) skips one character after each backslash and leaves at a
quote, exactly like readString's scan; mode 2 (inside a comment) leaves at
a newline without opening literals. The scan closes every string literal it
opens precisely when it does not reach the end of the input in mode 1. -/
def quotesClosed (cs : List Char) (i mode : Nat) : Bool :=
  quotesClosedF (cs.length + 1 - i) cs i mode

/-! ## Concrete programs and machines used by the claim theorems -/

/-- Bytecode of the loop program of the claim: INT_STORE R1 3, then from
offset 4: DEC R1, INT_PRINT R1, SUB R0 R1 R1, JUMP_NZ 4, EXIT. -/
def loopProg : List Nat :=
  [0x01, 0x01, 0x03, 0x00,
   0x26, 0x01,
   0x02, 0x01,
   0x22, 0x00, 0x01, 0x01,
   0x12, 0x04, 0x00,
   0x00]

/-- State of the loop program after INT_STORE: R1 holds 3, next fetch at 4. -/
def c2s1 : CPU :=
  { regs := fun k => if k = 1 then ⟨3, "", "int"⟩ else (loadedCPU loopProg).regs k,
    flagZ := false, mem := (loadedCPU loopProg).mem, ip := 4, stack := ⟨[]⟩ }

/-- After DEC: R1 holds 2, next fetch at 6. -/
def c2s2 : CPU :=
  { c2s1 with regs := fun k => if k = 1 then ⟨2, "", "int"⟩ else c2s1.regs k, ip := 6 }

/-- After INT_PRINT (which emitted 02): next fetch at 8. -/
def c2s3 : CPU := { c2s2 with ip := 8 }

/-- After SUB R0 R1 R1: R0 holds 0 and the zero flag is set, next fetch
at 12. -/
def c2s4 : CPU :=
  { c2s3 with regs := (fun k => if k = 0 then ⟨0, "", "int"⟩ else c2s3.regs k), flagZ := true, ip := 12 }

/-- After JUMP_NZ (not taken, since Z is set): next fetch at 15, the EXIT
byte. -/
def c2s5 : CPU := { c2s4 with ip := 15 }

/-- Program reaching a negative instruction pointer: INT_STORE R1 0, DEC R1,
PUSH R1, RET. -/
def negIpProg : List Nat :=
  [0x01, 0x01, 0x00, 0x00,
   0x26, 0x01,
   0x70, 0x01,
   0x72]

/-- State of negIpProg after INT_STORE: R1 holds 0, next fetch at 4. -/
def negS1 : CPU :=
  { regs := fun k => if k = 1 then ⟨0, "", "int"⟩ else (loadedCPU negIpProg).regs k,
    flagZ := false, mem := (loadedCPU negIpProg).mem, ip := 4, stack := ⟨[]⟩ }

/-- After DEC: R1 holds -1. -/
def negS2 : CPU :=
  { negS1 with regs := fun k => if k = 1 then ⟨-1, "", "int"⟩ else negS1.regs k, ip := 6 }

/-- After PUSH: the stack holds -1. -/
def negS3 : CPU := { negS2 with ip := 8, stack := ⟨[-1]⟩ }

/-- After RET: the popped value -1 became the instruction pointer and the
wrap check did not touch it. -/
def negS4 : CPU := { negS3 with ip := -1, stack := ⟨[]⟩ }

/-- Machine about to execute PEEK R2, R1 where the address register R1 holds
a string (its stale int slot is 7). -/
def peekStrCPU : CPU :=
  { regs := fun n => if n = 1 then ⟨7, "boom", "string"⟩ else ⟨0, "", "int"⟩,
    flagZ := false, mem := copyFrom (fun _ => 0) [0x60, 0x02, 0x01] 0,
    ip := 0, stack := newStack }

/-- Machine about to execute MEMCPY R0, R1, R2 with the source address
register holding 0x10000, destination 100, length 1. -/
def memcpyBigCPU : CPU :=
  { regs := fun n =>
      if n = 0 then ⟨100, "", "int"⟩
      else if n = 1 then ⟨0x10000, "", "int"⟩
      else if n = 2 then ⟨1, "", "int"⟩
      else ⟨0, "", "int"⟩,
    flagZ := false, mem := copyFrom (fun _ => 0) [0x62, 0x00, 0x01, 0x02] 0,
    ip := 0, stack := newStack }

def stepFlag : Except Fatal (Bool × CPU × String) → Option Bool
  | .ok (_, c, _) => some c.flagZ
  | .error _ => none

def stepOut : Except Fatal (Bool × CPU × String) → Option String
  | .ok (_, _, s) => some s
  | .error _ => none

def loadOk : Except Fatal CPU → Bool
  | .ok _ => true
  | .error _ => false

def loadMemAt (r : Except Fatal CPU) (a : Nat) : Option Nat :=
  match r with
  | .ok c => some (c.mem a)
  | .error _ => none

/-- Machine about to execute ADD R0, R1, R1 where the operand register R1
holds a string. -/
def addStrCPU : CPU :=
  { regs := fun n => if n = 1 then ⟨7, "boom", "string"⟩ else ⟨0, "", "int"⟩,
    flagZ := false, mem := copyFrom (fun _ => 0) [0x21, 0x00, 0x01, 0x01] 0,
    ip := 0, stack := newStack }

/-- Machine about to execute POKE R0, R1 where the address register R1 holds
a string (its stale int slot is 7). -/
def pokeStrCPU : CPU :=
  { regs := fun n => if n = 1 then ⟨7, "boom", "string"⟩ else ⟨9, "", "int"⟩,
    flagZ := false, mem := copyFrom (fun _ => 0) [0x61, 0x00, 0x01] 0,
    ip := 0, stack := newStack }

/-- Machine about to execute INT_PRINT R1 where R1 holds a string. -/
def printStrCPU : CPU :=
  { regs := fun n => if n = 1 then ⟨7, "boom", "string"⟩ else ⟨0, "", "int"⟩,
    flagZ := false, mem := copyFrom (fun _ => 0) [0x02, 0x01] 0,
    ip := 0, stack := newStack }

/-- Machine about to execute PUSH R1 where R1 holds a string. -/
def pushStrCPU : CPU :=
  { regs := fun n => if n = 1 then ⟨7, "boom", "string"⟩ else ⟨0, "", "int"⟩,
    flagZ := false, mem := copyFrom (fun _ => 0) [0x70, 0x01] 0,
    ip := 0, stack := newStack }

/-- Machine about to execute STRING_PRINT R1 where R1 holds an int. -/
def sprintIntCPU : CPU :=
  { regs := fun _ => ⟨0, "", "int"⟩, flagZ := false,
    mem := copyFrom (fun _ => 0) [0x31, 0x01] 0, ip := 0, stack := newStack }

/-- Machine about to execute CMP_IMMEDIATE R1, 5 where R1 holds a string and
the zero flag is set. -/
def cmpImmStrCPU : CPU :=
  { regs := fun n => if n = 1 then ⟨7, "boom", "string"⟩ else ⟨0, "", "int"⟩,
    flagZ := true, mem := copyFrom (fun _ => 0) [0x41, 0x01, 0x05, 0x00] 0,
    ip := 0, stack := newStack }

/-- Machine about to execute POP R1 with 9 on the stack and a string in R1. -/
def popStrCPU : CPU :=
  { regs := fun n => if n = 1 then ⟨7, "boom", "string"⟩ else ⟨0, "", "int"⟩,
    flagZ := false, mem := copyFrom (fun _ => 0) [0x71, 0x01] 0,
    ip := 0, stack := ⟨[9]⟩ }

/-- Machine about to execute RET with the return addresses 11 then 22 pushed
in that order. -/
def retCPU : CPU :=
  { regs := fun _ => ⟨0, "", "int"⟩, flagZ := false,
    mem := copyFrom (fun _ => 0) [0x72] 0, ip := 0, stack := ⟨[11, 22]⟩ }

/-- Machine about to execute CALL 9. -/
def callCPU : CPU :=
  { regs := fun _ => ⟨0, "", "int"⟩, flagZ := false,
    mem := copyFrom (fun _ => 0) [0x73, 0x09, 0x00] 0, ip := 0, stack := newStack }

/-- Machine about to execute SUB R0, R1, R2 with R1 = 5, R2 = 3 and the zero
flag already set. -/
def subPosCPU : CPU :=
  { regs := fun n =>
      if n = 1 then ⟨5, "", "int"⟩
      else if n = 2 then ⟨3, "", "int"⟩
      else ⟨0, "", "int"⟩,
    flagZ := true, mem := copyFrom (fun _ => 0) [0x22, 0x00, 0x01, 0x02] 0,
    ip := 0, stack := newStack }

/-- Machine about to execute MEMCPY R0, R1, R2 with in-range addresses:
destination 10, source 4, length 2, and data bytes AA BB at 4 and 5. -/
def memcpySmallCPU : CPU :=
  { regs := fun n =>
      if n = 0 then ⟨10, "", "int"⟩
      else if n = 1 then ⟨4, "", "int"⟩
      else if n = 2 then ⟨2, "", "int"⟩
      else ⟨0, "", "int"⟩,
    flagZ := false,
    mem := copyFrom (fun _ => 0) [0x62, 0x00, 0x01, 0x02, 0xAA, 0xBB] 0,
    ip := 0, stack := newStack }

/-! ## Lexer lemmas -/

theorem readChar_chars (l : Lexer) : (l.readChar).characters = l.characters := rfl

theorem readChar_rp (l : Lexer) : (l.readChar).readPosition = l.readPosition + 1 := rfl

theorem lvalid_readChar (l : Lexer) : LValid l.readChar := by
  constructor
  · rfl
  · rfl

theorem skipWhiteSpace_chars (l : Lexer) : (l.skipWhiteSpace).characters = l.characters := by
  induction l using Lexer.skipWhiteSpace.induct with
  | case1 l h => rw [Lexer.skipWhiteSpace]; simp [h]
  | case2 l h1 h2 ih => rw [Lexer.skipWhiteSpace]; simp [h1, h2]; simpa [Lexer.readChar] using ih
  | case3 l h1 h2 => rw [Lexer.skipWhiteSpace]; simp [h1, h2]

theorem skipWhiteSpace_rp (l : Lexer) : l.readPosition ≤ (l.skipWhiteSpace).readPosition := by
  induction l using Lexer.skipWhiteSpace.induct with
  | case1 l h => rw [Lexer.skipWhiteSpace]; simp [h]
  | case2 l h1 h2 ih =>
      rw [Lexer.skipWhiteSpace]; simp [h1, h2]
      have : l.readPosition ≤ (l.readChar).readPosition := by simp [Lexer.readChar]
      omega
  | case3 l h1 h2 => rw [Lexer.skipWhiteSpace]; simp [h1, h2]

theorem lvalid_skipWhiteSpace (l : Lexer) (hv : LValid l) : LValid l.skipWhiteSpace := by
  induction l using Lexer.skipWhiteSpace.induct with
  | case1 l h => rw [Lexer.skipWhiteSpace]; simpa [h] using hv
  | case2 l h1 h2 ih => rw [Lexer.skipWhiteSpace]; simp [h1, h2]; exact ih (lvalid_readChar l)
  | case3 l h1 h2 => rw [Lexer.skipWhiteSpace]; simpa [h1, h2] using hv

theorem skipWhiteSpace_id (l : Lexer) (h : isWhitespace l.ch = false) :
    l.skipWhiteSpace = l := by
  rw [Lexer.skipWhiteSpace]
  split
  · rfl
  · rw [if_neg (by simp [h])]

theorem skipCommentLoop_chars (l : Lexer) :
    (l.skipCommentLoop).characters = l.characters := by
  induction l using Lexer.skipCommentLoop.induct with
  | case1 l h => rw [Lexer.skipCommentLoop]; simp [h]
  | case2 l h1 h2 => rw [Lexer.skipCommentLoop]; simp [h1, h2]
  | case3 l h1 h2 ih => rw [Lexer.skipCommentLoop]; simp [h1, h2]; simpa [Lexer.readChar] using ih

theorem skipCommentLoop_rp (l : Lexer) : l.readPosition ≤ (l.skipCommentLoop).readPosition := by
  induction l using Lexer.skipCommentLoop.induct with
  | case1 l h => rw [Lexer.skipCommentLoop]; simp [h]
  | case2 l h1 h2 => rw [Lexer.skipCommentLoop]; simp [h1, h2]
  | case3 l h1 h2 ih =>
      rw [Lexer.skipCommentLoop]; simp [h1, h2]
      have : l.readPosition ≤ (l.readChar).readPosition := by simp [Lexer.readChar]
      omega

theorem lvalid_skipCommentLoop (l : Lexer) (hv : LValid l) : LValid l.skipCommentLoop := by
  induction l using Lexer.skipCommentLoop.induct with
  | case1 l h => rw [Lexer.skipCommentLoop]; simpa [h] using hv
  | case2 l h1 h2 => rw [Lexer.skipCommentLoop]; simpa [h1, h2] using hv
  | case3 l h1 h2 ih => rw [Lexer.skipCommentLoop]; simp [h1, h2]; exact ih (lvalid_readChar l)

theorem skipCommentLoop_advances (l : Lexer) (h1 : l.ch ≠ '\n') (h2 : l.ch ≠ nulChar)
    (h3 : l.readPosition ≤ l.characters.length) :
    l.readPosition < (l.skipCommentLoop).readPosition := by
  rw [Lexer.skipCommentLoop]
  rw [if_neg (by simp [h1, h2])]
  rw [if_neg (by omega)]
  have := skipCommentLoop_rp l.readChar
  rw [readChar_rp] at this
  omega

theorem skipComment_chars (l : Lexer) : (l.skipComment).characters = l.characters := by
  unfold Lexer.skipComment
  rw [skipWhiteSpace_chars, skipCommentLoop_chars]

theorem lvalid_skipComment (l : Lexer) (hv : LValid l) : LValid l.skipComment :=
  lvalid_skipWhiteSpace _ (lvalid_skipCommentLoop _ hv)

/-- Coherent states with the current character present in the rune slice have
the read cursor inside the slice. -/
theorem lvalid_rp_le (l : Lexer) (hv : LValid l) (h : l.ch ≠ nulChar) :
    l.readPosition ≤ l.characters.length ∧ l.position < l.characters.length := by
  obtain ⟨h1, h2⟩ := hv
  by_cases hp : l.characters.length ≤ l.position
  · rw [if_pos hp] at h2; exact absurd h2 h
  · omega

/-- The measure of nextToken strictly drops across skipComment from any
coherent state sitting on a hash mark: the decrease recorded in the guard of
nextToken always holds there. -/
theorem skipComment_decrease (l : Lexer) (hv : LValid l) (h : l.ch = '#') :
    (l.skipComment).characters.length + 1 - (l.skipComment).readPosition
      < l.characters.length + 1 - l.readPosition := by
  have hne : l.ch ≠ nulChar := by rw [h]; decide
  have hbound := lvalid_rp_le l hv hne
  have hadv := skipCommentLoop_advances l (by rw [h]; decide) hne hbound.1
  have hmono := skipWhiteSpace_rp l.skipCommentLoop
  have hc : (l.skipComment).characters = l.characters := skipComment_chars l
  have hc2 : (l.skipComment).readPosition = (l.skipCommentLoop.skipWhiteSpace).readPosition := rfl
  rw [hc, hc2]
  omega

theorem identLoop_chars (l : Lexer) : (l.identLoop).characters = l.characters := by
  induction l using Lexer.identLoop.induct with
  | case1 l h => rw [Lexer.identLoop]; simp [h]
  | case2 l h1 h2 ih => rw [Lexer.identLoop]; simp [h1, h2]; simpa [Lexer.readChar] using ih
  | case3 l h1 h2 => rw [Lexer.identLoop]; simp [h1, h2]

theorem lvalid_identLoop (l : Lexer) (hv : LValid l) : LValid l.identLoop := by
  induction l using Lexer.identLoop.induct with
  | case1 l h => rw [Lexer.identLoop]; simpa [h] using hv
  | case2 l h1 h2 ih => rw [Lexer.identLoop]; simp [h1, h2]; exact ih (lvalid_readChar l)
  | case3 l h1 h2 => rw [Lexer.identLoop]; simpa [h1, h2] using hv

theorem numLoop_chars (l : Lexer) : (l.numLoop).characters = l.characters := by
  induction l using Lexer.numLoop.induct with
  | case1 l h => rw [Lexer.numLoop]; simp [h]
  | case2 l h1 h2 ih => rw [Lexer.numLoop]; simp [h1, h2]; simpa [Lexer.readChar] using ih
  | case3 l h1 h2 => rw [Lexer.numLoop]; simp [h1, h2]

theorem lvalid_numLoop (l : Lexer) (hv : LValid l) : LValid l.numLoop := by
  induction l using Lexer.numLoop.induct with
  | case1 l h => rw [Lexer.numLoop]; simpa [h] using hv
  | case2 l h1 h2 ih => rw [Lexer.numLoop]; simp [h1, h2]; exact ih (lvalid_readChar l)
  | case3 l h1 h2 => rw [Lexer.numLoop]; simpa [h1, h2] using hv

/-- In a coherent state, identLoop stops exactly after the maximal identifier
run that begins at the current position. -/
theorem identLoop_position (l : Lexer) (hv : LValid l) :
    (l.identLoop).position
      = l.position + ((l.characters.drop l.position).takeWhile isIdentifier).length := by
  induction l using Lexer.identLoop.induct with
  | case1 l h =>
      rw [Lexer.identLoop]; simp only [h, if_pos]
      obtain ⟨h1, _⟩ := hv
      have : l.characters.drop l.position = [] := List.drop_eq_nil_of_le (by omega)
      simp [this]
  | case2 l h1 h2 ih =>
      rw [Lexer.identLoop]; rw [if_neg h1, if_pos h2]
      obtain ⟨hv1, hv2⟩ := hv
      have hpos : l.position < l.characters.length := by
        by_contra hge
        rw [if_pos (by omega)] at hv2
        rw [hv2] at h2
        exact absurd h2 (by decide)
      rw [if_neg (by omega)] at hv2
      have hdrop : l.characters.drop l.position
          = charAt l.characters l.position :: l.characters.drop (l.position + 1) := by
        unfold charAt
        rw [List.getD_eq_getElem _ _ hpos]
        exact List.drop_eq_getElem_cons hpos
      rw [hdrop, List.takeWhile_cons, ← hv2, h2]
      have := ih (lvalid_readChar l)
      rw [this]
      simp [Lexer.readChar, hv1]
      omega
  | case3 l h1 h2 =>
      rw [Lexer.identLoop]; rw [if_neg h1, if_neg h2]
      obtain ⟨hv1, hv2⟩ := hv
      by_cases hpos : l.position < l.characters.length
      · rw [if_neg (by omega)] at hv2
        have hdrop : l.characters.drop l.position
            = charAt l.characters l.position :: l.characters.drop (l.position + 1) := by
          unfold charAt
          rw [List.getD_eq_getElem _ _ hpos]
          exact List.drop_eq_getElem_cons hpos
        rw [hdrop, List.takeWhile_cons, ← hv2]
        simp [h2]
      · have : l.characters.drop l.position = [] := List.drop_eq_nil_of_le (by omega)
        simp [this]

/-- readUntilWhitespace terminates from a coherent state as soon as some
whitespace character lies at or after the current position. -/
theorem untilWsLoop_some (l : Lexer) (hv : LValid l)
    (hj : ∃ j, l.position ≤ j ∧ j < l.characters.length ∧
      isWhitespace (charAt l.characters j) = true) :
    l.untilWsLoop ≠ none := by
  induction l using Lexer.untilWsLoop.induct with
  | case1 l h => rw [Lexer.untilWsLoop]; simp [h]
  | case2 l h1 h2 =>
      obtain ⟨j, hj1, hj2, hj3⟩ := hj
      obtain ⟨hv1, _⟩ := hv
      omega
  | case3 l h1 h2 ih =>
      rw [Lexer.untilWsLoop]; rw [if_neg (by simp [h1]), if_neg h2]
      apply ih (lvalid_readChar l)
      obtain ⟨j, hj1, hj2, hj3⟩ := hj
      obtain ⟨hv1, hv2⟩ := hv
      have hpos : l.position < l.characters.length := by omega
      rw [if_neg (by omega)] at hv2
      have hne : j ≠ l.position := by
        intro he
        rw [he] at hj3
        rw [← hv2] at hj3
        rw [hj3] at h1
        exact absurd rfl h1
      refine ⟨j, ?_, hj2, hj3⟩
      show l.readPosition ≤ j
      omega

/-- readString terminates precisely when its scan reaches a closing quote. -/
theorem readStringLoop_some (l : Lexer) (out : String)
    (h : scanCloses l.characters l.readPosition = true) :
    l.readStringLoop out ≠ none := by
  induction l, out using Lexer.readStringLoop.induct with
  | case1 l out h1 => rw [Lexer.readStringLoop]; simp [h1]
  | case2 l out h1 h2 =>
      rw [scanCloses] at h
      rw [if_neg (by simp [Lexer.readChar] at h2; omega)] at h
      exact absurd h (by decide)
  | case3 l out h1 h2 h3 ih =>
      rw [Lexer.readStringLoop]; rw [if_neg h1, if_neg h2, if_pos h3]
      apply ih
      have hlt : l.readPosition < l.characters.length := by
        simp [Lexer.readChar] at h2; omega
      rw [scanCloses, if_pos hlt] at h
      have hch : charAt l.characters l.readPosition = (l.readChar).ch := by
        simp [Lexer.readChar, if_neg (by omega : ¬ l.characters.length ≤ l.readPosition)]
      rw [hch, if_neg h1, if_pos h3] at h
      simpa [Lexer.readChar] using h
  | case4 l out h1 h2 h3 ih =>
      rw [Lexer.readStringLoop]; rw [if_neg h1, if_neg h2, if_neg h3]
      apply ih
      have hlt : l.readPosition < l.characters.length := by
        simp [Lexer.readChar] at h2; omega
      rw [scanCloses, if_pos hlt] at h
      have hch : charAt l.characters l.readPosition = (l.readChar).ch := by
        simp [Lexer.readChar, if_neg (by omega : ¬ l.characters.length ≤ l.readPosition)]
      rw [hch, if_neg h1, if_neg h3] at h
      simpa [Lexer.readChar] using h

/-- readString diverges when no closing quote is reachable by its scan. -/
theorem readStringLoop_none (l : Lexer) (out : String)
    (h : scanCloses l.characters l.readPosition = false) :
    l.readStringLoop out = none := by
  induction l, out using Lexer.readStringLoop.induct with
  | case1 l out h1 =>
      exfalso
      have hlt : l.readPosition < l.characters.length := by
        by_contra hge
        have : (l.readChar).ch = nulChar := by
          simp [Lexer.readChar, if_pos (by omega : l.characters.length ≤ l.readPosition)]
        rw [this] at h1
        exact absurd h1 (by decide)
      rw [scanCloses, if_pos hlt] at h
      have hch : charAt l.characters l.readPosition = (l.readChar).ch := by
        simp [Lexer.readChar, if_neg (by omega : ¬ l.characters.length ≤ l.readPosition)]
      rw [hch, if_pos h1] at h
      exact absurd h (by decide)
  | case2 l out h1 h2 => rw [Lexer.readStringLoop]; simp [h1, h2]
  | case3 l out h1 h2 h3 ih =>
      rw [Lexer.readStringLoop]; rw [if_neg h1, if_neg h2, if_pos h3]
      apply ih
      have hlt : l.readPosition < l.characters.length := by
        simp [Lexer.readChar] at h2; omega
      rw [scanCloses, if_pos hlt] at h
      have hch : charAt l.characters l.readPosition = (l.readChar).ch := by
        simp [Lexer.readChar, if_neg (by omega : ¬ l.characters.length ≤ l.readPosition)]
      rw [hch, if_neg h1, if_pos h3] at h
      simpa [Lexer.readChar] using h
  | case4 l out h1 h2 h3 ih =>
      rw [Lexer.readStringLoop]; rw [if_neg h1, if_neg h2, if_neg h3]
      apply ih
      have hlt : l.readPosition < l.characters.length := by
        simp [Lexer.readChar] at h2; omega
      rw [scanCloses, if_pos hlt] at h
      have hch : charAt l.characters l.readPosition = (l.readChar).ch := by
        simp [Lexer.readChar, if_neg (by omega : ¬ l.characters.length ≤ l.readPosition)]
      rw [hch, if_neg h1, if_neg h3] at h
      simpa [Lexer.readChar] using h

/-- From a coherent state on an input without embedded rune(0) characters,
the comment loop stops exactly at the end of the current line. -/
theorem skipCommentLoop_position (l : Lexer) (hv : LValid l)
    (hn : ∀ c ∈ l.characters, c ≠ nulChar) (hp : l.position ≤ l.characters.length) :
    (l.skipCommentLoop).position = lineEnd l.characters l.position := by
  induction l using Lexer.skipCommentLoop.induct with
  | case1 l h =>
      rw [Lexer.skipCommentLoop]; rw [if_pos h]
      obtain ⟨hv1, hv2⟩ := hv
      rcases h with h | h
      · have hpos : l.position < l.characters.length := by
          by_contra hge
          rw [if_pos (by omega)] at hv2
          rw [hv2] at h
          exact absurd h (by decide)
        rw [if_neg (by omega)] at hv2
        rw [lineEnd, if_pos hpos, if_pos (by rw [← hv2, ← h])]
      · by_cases hpos : l.position < l.characters.length
        · exfalso
          rw [if_neg (by omega)] at hv2
          have : charAt l.characters l.position ∈ l.characters := by
            unfold charAt
            rw [List.getD_eq_getElem _ _ hpos]
            exact List.getElem_mem hpos
          exact hn _ this (by rw [← hv2, h])
        · rw [lineEnd, if_neg hpos]
          omega
  | case2 l h1 h2 =>
      exfalso
      obtain ⟨hv1, hv2⟩ := hv
      rw [if_pos (by omega)] at hv2
      exact h1 (Or.inr hv2)
  | case3 l h1 h2 ih =>
      rw [Lexer.skipCommentLoop]; rw [if_neg h1, if_neg h2]
      obtain ⟨hv1, hv2⟩ := hv
      have hch : l.ch ≠ '\n' ∧ l.ch ≠ nulChar := by
        constructor <;> intro he <;> exact h1 (by simp [he])
      have hpos : l.position < l.characters.length := by
        by_contra hge
        rw [if_pos (by omega)] at hv2
        exact hch.2 hv2
      rw [if_neg (by omega)] at hv2
      rw [lineEnd, if_pos hpos, if_neg (by rw [← hv2]; exact hch.1)]
      have := ih (lvalid_readChar l) (by simpa [Lexer.readChar] using hn)
        (by simp [Lexer.readChar]; omega)
      rw [this]
      simp [Lexer.readChar, hv1]

/-- For characters other than the rune(0) sentinel the identifier class of
the source and the claim class (not whitespace, not a comma) agree. -/
theorem identCh_eq (c : Char) (h : c ≠ nulChar) : isIdentifier c = identClaimCh c := by
  unfold isIdentifier identClaimCh isEmpty
  have : (c == nulChar) = false := by simp [h]
  rw [this]
  cases hw : isWhitespace c <;> cases hc : (decide (c = ',')) <;> simp_all

theorem takeWhile_ident_eq (xs : List Char) (h : ∀ c ∈ xs, c ≠ nulChar) :
    xs.takeWhile isIdentifier = xs.takeWhile identClaimCh := by
  induction xs with
  | nil => rfl
  | cons c rest ih =>
      rw [List.takeWhile_cons, List.takeWhile_cons, identCh_eq c (h c (by simp))]
      split


      · rw [ih (fun x hx => h x (by simp [hx]))]
      · rfl

/-- A keyword lookup can only hit when the identifier is one of the table
keys, none of which begins with a hash mark. -/
theorem hash_lookup (s : String) (h : s.data.head? = some '#') :
    lookupIdentifier s = "IDENT" := by
  unfold lookupIdentifier
  have hk : keywords.find? (fun p => p.1 == s) = none := by
    rw [List.find?_eq_none]
    intro p hp
    simp only [beq_iff_eq]
    intro he
    have hh : ∀ q ∈ keywords, q.1.data.head? ≠ some '#' := by decide
    exact hh p hp (by rw [he, h])
  rw [hk]

/-- From a coherent state on a hash mark not followed by a digit, NextToken
is the next token after skipComment. -/
theorem nextToken_hash_comment (l : Lexer) (hv : LValid l) (h1 : l.ch = '#')
    (h2 : isDigit l.peekChar = false) :
    l.nextToken = (l.skipComment).nextToken := by
  rw [Lexer.nextToken]
  rw [skipWhiteSpace_id l (by rw [h1]; decide)]
  rw [dif_pos ⟨h1, h2, skipComment_decrease l hv h1⟩]

/-- C8: at a coherent lexer state whose current character is a hash mark, on
an input without embedded rune(0): when the next character is not a decimal
digit, everything up to the end of the line is skipped as a comment (the
comment loop stops exactly at the line end) and the token after the comment
is returned; when the next character is a decimal digit, the token is a
single IDENT whose literal is the whole following run of non-whitespace,
non-comma characters, hash mark included. -/
theorem C8_hash_comment_or_register :
    ∀ l : Lexer, LValid l → (∀ c ∈ l.characters, c ≠ nulChar) → l.ch = '#' →
    ((isDigit l.peekChar = false →
        l.nextToken = (l.skipComment).nextToken ∧
        (l.skipCommentLoop).position = lineEnd l.characters l.position) ∧
     (isDigit l.peekChar = true →
        l.nextToken = some (⟨"IDENT",
          String.mk ((l.characters.drop l.position).takeWhile identClaimCh)⟩,
          l.identLoop))) := by
  intro l hv hn h1
  have hne : l.ch ≠ nulChar := by rw [h1]; decide
  have hpos := (lvalid_rp_le l hv hne).2
  constructor
  · intro h2
    refine ⟨nextToken_hash_comment l hv h1 h2, ?_⟩
    exact skipCommentLoop_position l hv hn (by omega)
  · intro h2
    rw [Lexer.nextToken]
    rw [skipWhiteSpace_id l (by rw [h1]; decide)]
    rw [dif_neg (by rintro ⟨_, hd, _⟩; simp [h2] at hd)]
    rw [h1]
    rw [if_neg (by decide), if_neg (by decide), if_neg (by decide),
      if_neg (by decide), if_neg (by decide)]
    have hcc : charAt l.characters l.position = '#' := by
      obtain ⟨_, hv2⟩ := hv
      rw [if_neg (by omega)] at hv2
      rw [← hv2, h1]
    have hdrop : l.characters.drop l.position
        = '#' :: l.characters.drop (l.position + 1) := by
      rw [← hcc]
      unfold charAt
      rw [List.getD_eq_getElem _ _ hpos]
      exact List.drop_eq_getElem_cons hpos
    have hslice : sliceStr l.characters l.position (l.identLoop).position
        = String.mk ((l.characters.drop l.position).takeWhile isIdentifier) := by
      unfold sliceStr
      rw [identLoop_position l hv]
      congr 1
      rw [Nat.add_sub_cancel_left]
      exact (List.prefix_iff_eq_take.mp (List.takeWhile_prefix _)).symm
    have hhead : (l.characters.drop l.position).takeWhile isIdentifier
        = '#' :: ((l.characters.drop (l.position + 1)).takeWhile isIdentifier) := by
      rw [hdrop, List.takeWhile_cons, if_pos (by decide)]
    have hident : lookupIdentifier
        (String.mk ((l.characters.drop l.position).takeWhile isIdentifier)) = "IDENT" := by
      apply hash_lookup
      rw [hhead]
      rfl
    unfold Lexer.readIdentifierGo
    rw [hslice]
    simp only [hident]
    rw [takeWhile_ident_eq _ (fun c hc => hn c (List.mem_of_mem_drop hc))]

/-- C8 witness: the register reference input of the lexer test file. -/
theorem C8_hash_witness :
    LValid (lexerNew "#1,") ∧ (lexerNew "#1,").ch = '#' ∧
    isDigit (lexerNew "#1,").peekChar = true ∧
    (lexerNew "#1,").nextToken = some (⟨"IDENT",
      String.mk ((((lexerNew "#1,").characters).drop
        ((lexerNew "#1,").position)).takeWhile identClaimCh)⟩,
      (lexerNew "#1,").identLoop) := by
  refine ⟨by decide, by decide, by decide, ?_⟩
  exact (C8_hash_comment_or_register (lexerNew "#1,") (by decide) (by decide)
    (by decide)).2 (by decide)

/-- A whitespace character is neither a quote nor a hash mark. -/
theorem ws_not_quote_hash (c : Char) (h : isWhitespace c = true) :
    c ≠ '"' ∧ c ≠ '#' := by
  simp only [isWhitespace, Bool.or_eq_true, beq_iff_eq] at h
  rcases h with ((h | h) | h) | h <;> subst h <;> exact ⟨by decide, by decide⟩

/-- peekChar of a coherent state is the character one past the current
position (the nulChar default of charAt matches the sentinel). -/
theorem peekChar_charAt (l : Lexer) (hv : LValid l) :
    l.peekChar = charAt l.characters (l.position + 1) := by
  obtain ⟨ha, _⟩ := hv
  unfold Lexer.peekChar
  rw [ha]
  split
  · rw [charAt, List.getD_eq_default _ _ (by omega)]
  · rfl

/-- The fuelled quote scan ignores its fuel once the fuel covers the
remaining input. -/
theorem quotesClosedF_irrel (f1 : Nat) : ∀ (f2 : Nat) (cs : List Char) (i mode : Nat),
    cs.length + 1 - i ≤ f1 → cs.length + 1 - i ≤ f2 →
    quotesClosedF f1 cs i mode = quotesClosedF f2 cs i mode := by
  induction f1 with
  | zero =>
      intro f2 cs i mode h1 h2
      have hge : ¬ i < cs.length := by omega
      cases f2 with
      | zero => rfl
      | succ f2 => rw [quotesClosedF, quotesClosedF, if_neg hge]
  | succ f1 ih =>
      intro f2 cs i mode h1 h2
      cases f2 with
      | zero =>
          have hge : ¬ i < cs.length := by omega
          rw [quotesClosedF, quotesClosedF, if_neg hge]
      | succ f2 =>
          rw [quotesClosedF, quotesClosedF]
          by_cases hlt : i < cs.length
          · rw [if_pos hlt, if_pos hlt]
            by_cases m1 : mode = 1
            · rw [if_pos m1, if_pos m1]
              by_cases c1 : charAt cs i = '"'
              · rw [if_pos c1, if_pos c1]
                exact ih f2 cs (i + 1) 0 (by omega) (by omega)
              · rw [if_neg c1, if_neg c1]
                by_cases c2 : charAt cs i = '\\'
                · rw [if_pos c2, if_pos c2]
                  exact ih f2 cs (i + 2) 1 (by omega) (by omega)
                · rw [if_neg c2, if_neg c2]
                  exact ih f2 cs (i + 1) 1 (by omega) (by omega)
            · rw [if_neg m1, if_neg m1]
              by_cases m2 : mode = 2
              · rw [if_pos m2, if_pos m2]
                by_cases c1 : charAt cs i = '\n'
                · rw [if_pos c1, if_pos c1]
                  exact ih f2 cs (i + 1) 0 (by omega) (by omega)
                · rw [if_neg c1, if_neg c1]
                  exact ih f2 cs (i + 1) 2 (by omega) (by omega)
              · rw [if_neg m2, if_neg m2]
                by_cases c1 : charAt cs i = '"'
                · rw [if_pos c1, if_pos c1]
                  exact ih f2 cs (i + 1) 1 (by omega) (by omega)
                · rw [if_neg c1, if_neg c1]
                  by_cases c2 : charAt cs i = '#' ∧ isDigit (charAt cs (i + 1)) = false
                  · rw [if_pos c2, if_pos c2]
                    exact ih f2 cs (i + 1) 2 (by omega) (by omega)
                  · rw [if_neg c2, if_neg c2]
                    exact ih f2 cs (i + 1) 0 (by omega) (by omega)
          · rw [if_neg hlt, if_neg hlt]

/-- Any sufficient fuel computes the quote scan. -/
theorem quotesClosed_fuel (cs : List Char) (i mode f : Nat)
    (h : cs.length + 1 - i ≤ f) : quotesClosedF f cs i mode = quotesClosed cs i mode := by
  unfold quotesClosed
  exact quotesClosedF_irrel f (cs.length + 1 - i) cs i mode h (le_refl _)

/-- One-step unfolding of the quote scan. -/
theorem quotesClosed_eq (cs : List Char) (i mode : Nat) :
    quotesClosed cs i mode =
      if i < cs.length then
        if mode = 1 then
          if charAt cs i = '"' then quotesClosed cs (i + 1) 0
          else if charAt cs i = '\\' then quotesClosed cs (i + 2) 1
          else quotesClosed cs (i + 1) 1
        else if mode = 2 then
          if charAt cs i = '\n' then quotesClosed cs (i + 1) 0
          else quotesClosed cs (i + 1) 2
        else
          if charAt cs i = '"' then quotesClosed cs (i + 1) 1
          else if charAt cs i = '#' ∧ isDigit (charAt cs (i + 1)) = false then
            quotesClosed cs (i + 1) 2
          else quotesClosed cs (i + 1) 0
      else decide (mode ≠ 1) := by
  by_cases hlt : i < cs.length
  · rw [if_pos hlt]
    unfold quotesClosed
    rw [show cs.length + 1 - i = (cs.length - i) + 1 from by omega]
    rw [quotesClosedF, if_pos hlt]
    by_cases m1 : mode = 1
    · rw [if_pos m1, if_pos m1]
      by_cases c1 : charAt cs i = '"'
      · rw [if_pos c1, if_pos c1]
        exact quotesClosedF_irrel _ _ cs (i + 1) 0 (by omega) (le_refl _)
      · rw [if_neg c1, if_neg c1]
        by_cases c2 : charAt cs i = '\\'
        · rw [if_pos c2, if_pos c2]
          exact quotesClosedF_irrel _ _ cs (i + 2) 1 (by omega) (le_refl _)
        · rw [if_neg c2, if_neg c2]
          exact quotesClosedF_irrel _ _ cs (i + 1) 1 (by omega) (le_refl _)
    · rw [if_neg m1, if_neg m1]
      by_cases m2 : mode = 2
      · rw [if_pos m2, if_pos m2]
        by_cases c1 : charAt cs i = '\n'
        · rw [if_pos c1, if_pos c1]
          exact quotesClosedF_irrel _ _ cs (i + 1) 0 (by omega) (le_refl _)
        · rw [if_neg c1, if_neg c1]
          exact quotesClosedF_irrel _ _ cs (i + 1) 2 (by omega) (le_refl _)
      · rw [if_neg m2, if_neg m2]
        by_cases c1 : charAt cs i = '"'
        · rw [if_pos c1, if_pos c1]
          exact quotesClosedF_irrel _ _ cs (i + 1) 1 (by omega) (le_refl _)
        · rw [if_neg c1, if_neg c1]
          by_cases c2 : charAt cs i = '#' ∧ isDigit (charAt cs (i + 1)) = false
          · rw [if_pos c2, if_pos c2]
            exact quotesClosedF_irrel _ _ cs (i + 1) 2 (by omega) (le_refl _)
          · rw [if_neg c2, if_neg c2]
            exact quotesClosedF_irrel _ _ cs (i + 1) 0 (by omega) (le_refl _)
  · rw [if_neg hlt]
    unfold quotesClosed
    cases hf : cs.length + 1 - i with
    | zero => rfl
    | succ f => rw [quotesClosedF, if_neg hlt]

/-- The outside-literal quote scan is unchanged by skipWhiteSpace: every
consumed character is whitespace, which opens neither a literal nor a
comment. -/
theorem qc_skipWhiteSpace (l : Lexer) (hv : LValid l)
    (hq : quotesClosed l.characters l.position 0 = true) :
    quotesClosed l.characters (l.skipWhiteSpace).position 0 = true := by
  induction l using Lexer.skipWhiteSpace.induct with
  | case1 l h => rw [Lexer.skipWhiteSpace, if_pos h]; exact hq
  | case2 l h1 h2 ih =>
      rw [Lexer.skipWhiteSpace, if_neg h1, if_pos h2]
      obtain ⟨ha, hb⟩ := hv
      have hpos : l.position < l.characters.length := by
        by_contra hge
        rw [if_pos (by omega)] at hb
        rw [hb] at h2
        exact absurd h2 (by decide)
      rw [if_neg (by omega)] at hb
      have hcw := ws_not_quote_hash (charAt l.characters l.position) (by rw [← hb]; exact h2)
      have hstep : quotesClosed l.characters (l.position + 1) 0 = true := by
        rw [quotesClosed_eq, if_pos hpos, if_neg (by decide), if_neg (by decide),
          if_neg hcw.1, if_neg (by intro hcon; exact hcw.2 hcon.1)] at hq
        exact hq
      exact ih (lvalid_readChar l)
        (by show quotesClosed l.characters l.readPosition 0 = true; rw [ha]; exact hstep)
  | case3 l h1 h2 => rw [Lexer.skipWhiteSpace, if_neg h1, if_neg h2]; exact hq

/-- Across the comment loop the scan leaves comment mode exactly where the
loop stops: at the terminating newline both resume at the next character,
and at end of input the mode-0 scan is trivially closed (inputs without
embedded rune(0) characters, where the loop stops only at a newline or the
end). -/
theorem qc_skipCommentLoop (l : Lexer) (hv : LValid l)
    (hn : ∀ c ∈ l.characters, c ≠ nulChar)
    (hq : quotesClosed l.characters l.position 2 = true) :
    quotesClosed l.characters (l.skipCommentLoop).position 0 = true := by
  induction l using Lexer.skipCommentLoop.induct with
  | case1 l h =>
      rw [Lexer.skipCommentLoop, if_pos h]
      obtain ⟨ha, hb⟩ := hv
      rcases h with h | h
      · have hpos : l.position < l.characters.length := by
          by_contra hge
          rw [if_pos (by omega)] at hb
          rw [hb] at h
          exact absurd h (by decide)
        rw [if_neg (by omega)] at hb
        have hcn : charAt l.characters l.position = '\n' := by rw [← hb, h]
        rw [quotesClosed_eq, if_pos hpos, if_neg (by decide), if_pos rfl, if_pos hcn] at hq
        rw [quotesClosed_eq, if_pos hpos, if_neg (by decide), if_neg (by decide),
          if_neg (by rw [hcn]; decide),
          if_neg (by intro hcon; rw [hcn] at hcon; exact absurd hcon.1 (by decide))]
        exact hq
      · have hge : l.characters.length ≤ l.position := by
          by_contra hlt
          rw [if_neg (by omega)] at hb
          have hmem : charAt l.characters l.position ∈ l.characters := by
            unfold charAt
            rw [List.getD_eq_getElem _ _ (by omega)]
            exact List.getElem_mem (by omega)
          exact hn _ hmem (by rw [← hb, h])
        rw [quotesClosed_eq, if_neg (by omega)]
        decide
  | case2 l h1 h2 =>
      exfalso
      obtain ⟨ha, hb⟩ := hv
      rw [if_pos (by omega)] at hb
      exact h1 (Or.inr hb)
  | case3 l h1 h2 ih =>
      rw [Lexer.skipCommentLoop, if_neg h1, if_neg h2]
      obtain ⟨ha, hb⟩ := hv
      have hch : l.ch ≠ '\n' ∧ l.ch ≠ nulChar := by
        constructor <;> intro he <;> exact h1 (by simp [he])
      have hpos : l.position < l.characters.length := by
        by_contra hge
        rw [if_pos (by omega)] at hb
        exact hch.2 hb
      rw [if_neg (by omega)] at hb
      have hstep : quotesClosed l.characters (l.position + 1) 2 = true := by
        rw [quotesClosed_eq, if_pos hpos, if_neg (by decide), if_pos rfl,
          if_neg (by rw [← hb]; exact hch.1)] at hq
        exact hq
      exact ih (lvalid_readChar l) (by simpa [Lexer.readChar] using hn)
        (by show quotesClosed l.characters l.readPosition 2 = true; rw [ha]; exact hstep)

/-- A scan inside a literal that leaves before end of input is exactly a
successful readString scan. -/
theorem mode1_scanCloses (cs : List Char) :
    ∀ (k i : Nat), cs.length - i < k → quotesClosed cs i 1 = true →
    scanCloses cs i = true := by
  intro k
  induction k with
  | zero => intro i h; omega
  | succ k ih =>
      intro i hk h
      rw [quotesClosed_eq] at h
      rw [scanCloses]
      by_cases hlt : i < cs.length
      · rw [if_pos hlt] at h
        rw [if_pos hlt]
        rw [if_pos rfl] at h
        by_cases hcq : charAt cs i = '"'
        · rw [if_pos hcq]
        · rw [if_neg hcq] at h
          rw [if_neg hcq]
          by_cases hcb : charAt cs i = '\\'
          · rw [if_pos hcb] at h
            rw [if_pos hcb]
            exact ih (i + 2) (by omega) h
          · rw [if_neg hcb] at h
            rw [if_neg hcb]
            exact ih (i + 1) (by omega) h
      · rw [if_neg hlt] at h
        exact absurd h (by decide)

/-- All of NextToken terminates once the outside-literal quote scan from the
current position closes every string literal it opens and the input ends in
whitespace: the two divergent loops (readString and readUntilWhitespace) are
then always stopped. Stated with an explicit bound for the induction on the
comment recursion; inputs carry no embedded rune(0), the lexer's end
sentinel. -/
theorem nextToken_total_aux (n : Nat) :
    ∀ l : Lexer, l.characters.length + 1 - l.readPosition < n → LValid l →
    (∀ c ∈ l.characters, c ≠ nulChar) →
    quotesClosed l.characters l.position 0 = true →
    (l.characters ≠ [] →
      isWhitespace (charAt l.characters (l.characters.length - 1)) = true) →
    l.nextToken ≠ none := by
  induction n with
  | zero => intro l h; omega
  | succ n ih =>
      intro l hlt hv hn hq hw
      rw [Lexer.nextToken]
      generalize hl1 : l.skipWhiteSpace = l1
      have hv1 : LValid l1 := hl1 ▸ lvalid_skipWhiteSpace l hv
      have hc1 : l1.characters = l.characters := hl1 ▸ skipWhiteSpace_chars l
      have hq1 : quotesClosed l1.characters l1.position 0 = true := by
        rw [hc1]
        exact hl1 ▸ qc_skipWhiteSpace l hv hq
      by_cases hcase : l1.ch = '#' ∧ isDigit l1.peekChar = false ∧
          l1.skipComment.characters.length + 1 - l1.skipComment.readPosition
            < l.characters.length + 1 - l.readPosition
      · rw [dif_pos hcase]
        have hcc : l1.skipComment.characters = l.characters := by
          rw [skipComment_chars, hc1]
        have hne : l1.ch ≠ nulChar := by rw [hcase.1]; decide
        have hpos := (lvalid_rp_le l1 hv1 hne).2
        have hb : charAt l1.characters l1.position = '#' := by
          obtain ⟨_, hv2⟩ := hv1
          rw [if_neg (by omega)] at hv2
          rw [← hv2, hcase.1]
        have hpk : isDigit (charAt l1.characters (l1.position + 1)) = false := by
          rw [← peekChar_charAt l1 hv1]
          exact hcase.2.1
        have hq2 : quotesClosed l1.characters (l1.position + 1) 2 = true := by
          rw [quotesClosed_eq, if_pos hpos, if_neg (by decide), if_neg (by decide),
            if_neg (by rw [hb]; decide), if_pos ⟨hb, hpk⟩] at hq1
          exact hq1
        have hq3 : quotesClosed l1.characters l1.position 2 = true := by
          rw [quotesClosed_eq, if_pos hpos, if_neg (by decide), if_pos rfl,
            if_neg (by rw [hb]; decide)]
          exact hq2
        have hq4 : quotesClosed l1.characters (l1.skipCommentLoop).position 0 = true :=
          qc_skipCommentLoop l1 hv1 (by rw [hc1]; exact hn) hq3
        have hq5 : quotesClosed (l1.skipComment).characters (l1.skipComment).position 0
            = true := by
          rw [hcc, ← hc1]
          have hws := qc_skipWhiteSpace l1.skipCommentLoop (lvalid_skipCommentLoop l1 hv1)
            (by rw [skipCommentLoop_chars]; exact hq4)
          rw [skipCommentLoop_chars] at hws
          exact hws
        apply ih
        · have := hcase.2.2; omega
        · exact lvalid_skipComment l1 hv1
        · intro c hc
          rw [hcc] at hc
          exact hn c hc
        · exact hq5
        · intro hne2
          rw [hcc] at hne2 ⊢
          exact hw hne2
      · rw [dif_neg hcase]
        by_cases h2 : l1.ch = ','
        · rw [if_pos h2]; simp
        · rw [if_neg h2]
          by_cases h3 : l1.ch = '"'
          · rw [if_pos h3]
            have hne3 : l1.ch ≠ nulChar := by rw [h3]; decide
            have hpos3 := (lvalid_rp_le l1 hv1 hne3).2
            have hcc : charAt l1.characters l1.position = '"' := by
              obtain ⟨_, hv2⟩ := hv1
              rw [if_neg (by omega)] at hv2
              rw [← hv2, h3]
            have hq2 : quotesClosed l1.characters (l1.position + 1) 1 = true := by
              rw [quotesClosed_eq, if_pos hpos3, if_neg (by decide), if_neg (by decide),
                if_pos hcc] at hq1
              exact hq1
            have hsc : scanCloses l1.characters l1.readPosition = true := by
              rw [hv1.1]
              exact mode1_scanCloses l1.characters (l1.characters.length + 1)
                (l1.position + 1) (by omega) hq2
            intro hnone
            simp only [Lexer.readStringGo, Option.map_eq_none'] at hnone
            exact readStringLoop_some l1 "" hsc hnone
          · rw [if_neg h3]
            by_cases h4 : l1.ch = ':'
            · rw [if_pos h4]
              have hne4 : l1.ch ≠ nulChar := by rw [h4]; decide
              have hpos4 := (lvalid_rp_le l1 hv1 hne4).2
              have hlen : l.characters ≠ [] := by
                intro he
                rw [hc1, he] at hpos4
                simp at hpos4
              have hwl := hw hlen
              intro hnone
              simp only [Lexer.readLabel, Lexer.readUntilWhitespace,
                Option.map_eq_none'] at hnone
              exact untilWsLoop_some l1 hv1
                ⟨l1.characters.length - 1, by omega, by omega,
                  by rw [hc1]; exact hwl⟩ hnone
            · rw [if_neg h4]
              by_cases h5 : l1.ch = nulChar
              · rw [if_pos h5]; simp
              · rw [if_neg h5]
                by_cases h6 : isDigit l1.ch = true
                · rw [if_pos h6]
                  simp only [Lexer.readDecimal]
                  split
                  · simp
                  · rename_i hterm
                    generalize hl2 : (l1.readNumber).2 = l2 at *
                    have hv2 : LValid l2 := by
                      rw [← hl2]
                      exact lvalid_numLoop l1 hv1
                    have hc2 : l2.characters = l.characters := by
                      rw [← hl2]
                      show (l1.numLoop).characters = l.characters
                      rw [numLoop_chars, hc1]
                    simp only [Bool.or_eq_true, not_or] at hterm
                    have hne2 : l2.ch ≠ nulChar := by
                      intro he
                      exact absurd (by rw [isEmpty, he]; simp) hterm.1.1
                    have hpos2 := (lvalid_rp_le l2 hv2 hne2).2
                    have hlen : l.characters ≠ [] := by
                      intro he
                      rw [hc2, he] at hpos2
                      simp at hpos2
                    intro hnone
                    simp only [Lexer.readUntilWhitespace, Option.map_eq_none'] at hnone
                    exact untilWsLoop_some l2 hv2
                      ⟨l2.characters.length - 1, by omega, by omega,
                        by rw [hc2]; exact hw hlen⟩ hnone
                · rw [if_neg h6]; simp

/-- C10 amended: NextToken (from any coherent state on an input without
embedded rune(0) characters) terminates when the outside-literal scan from
the current position - which opens a string literal at each quote met
outside a comment and skips its body exactly as readString does, and skips
comments to their newline - closes every literal it opens, AND the input
ends with a whitespace character. The quote condition alone is necessary,
because readString does not stop at end of input: on an opening quote whose
scan reaches no closing quote, NextToken diverges. -/
theorem C10_nextToken_termination_amended :
    (∀ l : Lexer, LValid l →
      (∀ c ∈ l.characters, c ≠ nulChar) →
      quotesClosed l.characters l.position 0 = true →
      (l.characters ≠ [] →
        isWhitespace (charAt l.characters (l.characters.length - 1)) = true) →
      l.nextToken ≠ none) ∧
    (∀ l : Lexer, LValid l → l.ch = '"' →
      scanCloses l.characters l.readPosition = false → l.nextToken = none) := by
  constructor
  · intro l hv hn hq hw
    exact nextToken_total_aux (l.characters.length + 2) l (by omega) hv hn hq hw
  · intro l hv h3 hsc
    rw [Lexer.nextToken]
    rw [skipWhiteSpace_id l (by rw [h3]; decide)]
    rw [dif_neg (by rintro ⟨hc, _, _⟩; rw [h3] at hc; exact absurd hc (by decide))]
    rw [if_neg (by rw [h3]; decide), if_pos h3]
    simp [Lexer.readStringGo, readStringLoop_none l "" hsc]

/-- C10 witness: an input holding one closed string literal and ending in a
space satisfies the scan condition and terminates; an unterminated string
literal diverges. -/
theorem C10_termination_witness :
    (LValid (lexerNew "\"a\" ") ∧
      quotesClosed (lexerNew "\"a\" ").characters (lexerNew "\"a\" ").position 0 = true ∧
      (lexerNew "\"a\" ").nextToken ≠ none) ∧
    (LValid (lexerNew "\"ab") ∧ (lexerNew "\"ab").nextToken = none) := by
  refine ⟨⟨by decide, ?_, ?_⟩, ⟨by decide, ?_⟩⟩
  · decide
  · exact C10_nextToken_termination_amended.1 (lexerNew "\"a\" ") (by decide)
      (by decide) (by decide) (by decide)
  · exact C10_nextToken_termination_amended.2 (lexerNew "\"ab") (by decide) (by decide)
      (by simp [scanCloses, charAt, lexerNew, Lexer.readChar])

/-- C10 counterexample: the input of a lone label token not followed by any
whitespace contains no quote at all, so every quote that opens a string
literal is (vacuously) matched, yet NextToken diverges: readUntilWhitespace
also fails to stop at end of input. -/
theorem C10_label_divergence_counterexample :
    Lexer.nextToken (lexerNew ":x") = none ∧
    ('"' ∈ (lexerNew ":x").characters) = False := by
  constructor
  · simp [Lexer.nextToken, Lexer.skipWhiteSpace, Lexer.untilWsLoop, Lexer.readLabel,
      Lexer.readUntilWhitespace, Lexer.readChar, lexerNew, charAt, isWhitespace, isDigit,
      Lexer.peekChar, nulChar, Lexer.skipComment, Lexer.skipCommentLoop]
  · simp [lexerNew, Lexer.readChar]

/-! ## CPU lemmas -/

theorem memRead_ok (m : Nat → Nat) (a : Int) (h0 : 0 ≤ a) (h1 : a < (memSize : Int)) :
    memRead m a = .ok (m a.toNat) := by
  unfold memRead
  rw [if_pos ⟨h0, h1⟩]

theorem memWrite_ok (m : Nat → Nat) (a : Int) (v : Nat) (h0 : 0 ≤ a)
    (h1 : a < (memSize : Int)) : memWrite m a v = .ok (storeByte m a.toNat v) := by
  unfold memWrite storeByte
  rw [if_pos ⟨h0, h1⟩]

theorem getReg_ok (c : CPU) (n : Nat) (h : n < 16) : getReg c n = .ok (c.regs n) := by
  unfold getReg
  rw [if_pos h]

theorem setReg_ok (c : CPU) (n : Nat) (r : Register) (h : n < 16) :
    setReg c n r = .ok { c with regs := fun k => if k = n then r else c.regs k } := by
  unfold setReg
  rw [if_pos h]

theorem getInt_ok (r : Register) (h : r.t = "int") : r.getIntGo = .ok r.i := by
  unfold Register.getIntGo
  rw [if_neg (by simp [h])]

theorem getInt_err (r : Register) (h : r.t ≠ "int") :
    r.getIntGo = .error (.trap getIntMsg) := by
  unfold Register.getIntGo
  rw [if_pos h]

theorem getString_err (r : Register) (h : r.t ≠ "string") :
    r.getStringGo = .error (.trap getStringMsg) := by
  unfold Register.getStringGo
  rw [if_pos h]

theorem nextByte_ok (c : CPU) (h0 : 0 ≤ c.ip + 1) (h1 : c.ip + 1 < (memSize : Int)) :
    nextByte c = .ok (c.mem (c.ip + 1).toNat, bumpIp c) := by
  unfold nextByte
  rw [show (bumpIp c).mem = c.mem from rfl, show (bumpIp c).ip = c.ip + 1 from rfl]
  rw [memRead_ok _ _ h0 h1]
  rfl

theorem read2Val_ok (c : CPU) (h0 : 0 ≤ c.ip) (h1 : c.ip + 1 < (memSize : Int)) :
    read2Val c
      = .ok (c.mem c.ip.toNat + c.mem (c.ip + 1).toNat * 256, bumpIp (bumpIp c)) := by
  unfold read2Val
  rw [memRead_ok _ _ h0 (by omega)]
  rw [show (bumpIp c).mem = c.mem from rfl, show (bumpIp c).ip = c.ip + 1 from rfl]
  rw [memRead_ok _ _ (by omega) h1]
  rfl

theorem applyWrap_stack (c : CPU) : (applyWrap c).stack = c.stack := by
  unfold applyWrap; split <;> rfl

theorem applyWrap_mem (c : CPU) : (applyWrap c).mem = c.mem := by
  unfold applyWrap; split <;> rfl

theorem applyWrap_regs (c : CPU) : (applyWrap c).regs = c.regs := by
  unfold applyWrap; split <;> rfl

theorem applyWrap_flag (c : CPU) : (applyWrap c).flagZ = c.flagZ := by
  unfold applyWrap; split <;> rfl

/-- After any successful Run iteration the instruction pointer is below
0xFFFF: the wrap is the last thing each iteration does. -/
theorem stepCPU_ip_lt (o : Orac) (c : CPU) (b : Bool) (c1 : CPU) (s : String)
    (h : stepCPU o c = .ok (b, c1, s)) : c1.ip < (memSize : Int) := by
  unfold stepCPU at h
  cases he : execInstr o c with
  | ok v =>
      rw [he] at h
      obtain ⟨k, c2, s2⟩ := v
      simp only [Except.ok.injEq, Prod.mk.injEq] at h
      obtain ⟨_, hc, _⟩ := h
      rw [← hc]
      unfold applyWrap
      split
      · simp [memSize]
      · omega
  | error e =>
      rw [he] at h
      exact absurd h (by simp)

/-! ## Claim C2: the loop program -/

theorem c2step1 (o : Orac) (out : String) :
    advanceOutcome o (.running (loadedCPU loopProg) out) = .running c2s1 (out ++ "") := rfl

theorem c2step2 (o : Orac) (out : String) :
    advanceOutcome o (.running c2s1 out) = .running c2s2 (out ++ "") := rfl

theorem c2step3 (o : Orac) (out : String) :
    advanceOutcome o (.running c2s2 out) = .running c2s3 (out ++ "02") := rfl

theorem c2step4 (o : Orac) (out : String) :
    advanceOutcome o (.running c2s3 out) = .running c2s4 (out ++ "") := rfl

theorem c2step5 (o : Orac) (out : String) :
    advanceOutcome o (.running c2s4 out) = .running c2s5 (out ++ "") := rfl

theorem c2step6 (o : Orac) (out : String) :
    advanceOutcome o (.running c2s5 out) = .halted c2s5 (out ++ "") := rfl

/-- Full run of the loop program: it halts after six instructions with
stdout 02. -/
theorem loopRun :
    outcomeOut (steps oracZero 6 (.running (loadedCPU loopProg) "")) = some "02" := by
  simp only [steps, c2step1, c2step2, c2step3, c2step4, c2step5, c2step6]
  rfl

/-- C2 amended: the bytecode of the program store 3, then DEC, INT_PRINT,
SUB R0 R1 R1, JUMP_NZ top, EXIT prints exactly 02 and halts: the very first
SUB computes R1 - R1 = 0, which sets the zero flag, so JUMP_NZ falls through
after a single loop iteration. -/
theorem C2_loop_prints_02 :
    outcomeOut (steps oracZero 6 (.running (loadedCPU loopProg) "")) = some "02" :=
  loopRun

/-- C2 counterexample: the program does not print 020100 as the claim
states; it halts with stdout 02. -/
theorem C2_loop_not_020100 :
    outcomeOut (steps oracZero 6 (.running (loadedCPU loopProg) "")) ≠ some "020100" := by
  rw [loopRun]
  decide

/-! ## Claim C4: backpatch of the assembler -/

/-- C4: the backpatch loop detects an undefined label by comparing the map
value against 0, so a label legitimately defined at offset 0 is reported as
undefined and assembly exits non-zero instead of patching 00 00; a label at
a non-zero offset is patched little-endian and a genuinely absent label is
the same diagnostic. -/
theorem C4_backpatch_zero_offset :
    backpatch [0x10, 0, 0] [("top", 0)] [(1, "top")] = .error (.undefLabel "top") ∧
    backpatch [0x10, 0, 0] [("top", 4)] [(1, "top")] = .ok [0x10, 4, 0] ∧
    backpatch [0x10, 0, 0] [("top", 0x1234)] [(1, "top")] = .ok [0x10, 0x34, 0x12] ∧
    backpatch [0x10, 0, 0] [] [(1, "top")] = .error (.undefLabel "top") :=
  ⟨rfl, rfl, rfl, rfl⟩

/-! ## Claim C5: instruction pointer bounds -/

theorem loadedCPU_ip (data : List Nat) : (loadedCPU data).ip = 0 := by
  unfold loadedCPU
  split
  · rename_i c h
    unfold loadBytes at h
    split at h
    · exact absurd h (by simp)
    · injection h with h'
      rw [← h']
      rfl
  · rfl

/-- Any running state reached by iterating the Run loop from a state whose
instruction pointer is below 0xFFFF keeps that bound. -/
theorem steps_running_ip (os : Nat → Orac) (n : Nat) (st : Outcome)
    (hst : ∀ c out, st = .running c out → c.ip < (memSize : Int)) :
    ∀ c out, steps os n st = .running c out → c.ip < (memSize : Int) := by
  induction n generalizing os st with
  | zero => intro c out h; exact hst c out h
  | succ n ih =>
      intro c out h
      rw [steps] at h
      refine ih _ _ ?_ c out h
      intro c2 out2 hadv
      cases st with
      | running c3 out3 =>
          simp only [advanceOutcome] at hadv
          cases hs : stepCPU (os 0) c3 with
          | ok v =>
              obtain ⟨b, c4, s4⟩ := v
              rw [hs] at hadv
              cases b with
              | true =>
                  simp only [Outcome.running.injEq] at hadv
                  rw [← hadv.1]
                  exact stepCPU_ip_lt (os 0) c3 true c4 s4 hs
              | false => simp at hadv
          | error e =>
              rw [hs] at hadv
              simp at hadv
      | halted c3 out3 => simp [advanceOutcome] at hadv
      | fatalErr e out3 => simp [advanceOutcome] at hadv

/-- C5 amended: from a loaded image, at every fetch the instruction pointer
is strictly below 0xFFFF, and a single Run iteration always leaves it below
0xFFFF (the wrap to 0 runs after every instruction); the lower bound 0 of
the claim is NOT an invariant (see the counterexample). -/
theorem C5_ip_wrap_invariant :
    (∀ (prog : List Nat) (os : Nat → Orac) (n : Nat) (ip : Int),
        runningIp (steps os n (.running (loadedCPU prog) "")) = some ip →
        ip < (memSize : Int)) ∧
    (∀ (o : Orac) (c : CPU) (ip : Int),
        stepIp (stepCPU o c) = some ip → ip < (memSize : Int)) := by
  constructor
  · intro prog os n ip h
    cases hX : steps os n (.running (loadedCPU prog) "") with
    | running c out =>
        rw [hX] at h
        unfold runningIp at h
        simp only [Option.some.injEq] at h
        rw [← h]
        refine steps_running_ip os n _ ?_ c out hX
        intro c0 out0 he
        simp only [Outcome.running.injEq] at he
        rw [← he.1, loadedCPU_ip]
        simp [memSize]
    | halted c out => rw [hX] at h; exact absurd h (by simp [runningIp])
    | fatalErr e out => rw [hX] at h; exact absurd h (by simp [runningIp])
  · intro o c ip h
    cases hs : stepCPU o c with
    | ok v =>
        obtain ⟨b, c1, s⟩ := v
        rw [hs] at h
        unfold stepIp at h
        simp only [Option.some.injEq] at h
        rw [← h]
        exact stepCPU_ip_lt o c b c1 s hs
    | error e => rw [hs] at h; exact absurd h (by simp [stepIp])

/-- C5 witness: a single NOP leaves the machine running at address 1, below
0xFFFF. -/
theorem C5_ip_witness :
    runningIp (steps oracZero 1 (.running (loadedCPU [0x50]) "")) = some 1 ∧
    (1 : Int) < (memSize : Int) := by
  refine ⟨by decide, ?_⟩
  exact C5_ip_wrap_invariant.1 [0x50] oracZero 1 1 (by decide)

theorem negStep1 (o : Orac) (out : String) :
    advanceOutcome o (.running (loadedCPU negIpProg) out) = .running negS1 (out ++ "") := rfl

theorem negStep2 (o : Orac) (out : String) :
    advanceOutcome o (.running negS1 out) = .running negS2 (out ++ "") := rfl

theorem negStep3 (o : Orac) (out : String) :
    advanceOutcome o (.running negS2 out) = .running negS3 (out ++ "") := rfl

theorem negStep4 (o : Orac) (out : String) :
    advanceOutcome o (.running negS3 out) = .running negS4 (out ++ "") := rfl

/-- C5 counterexample: after store 0, DEC (to -1), PUSH and RET, the machine
is running with instruction pointer -1: the wrap check only catches values
at or above 0xFFFF, so a negative return address violates the claimed lower
bound 0 at the next fetch. -/
theorem C5_negative_ip_counterexample :
    runningIp (steps oracZero 4 (.running (loadedCPU negIpProg) "")) = some (-1) ∧
    ¬ (0 : Int) ≤ -1 := by
  constructor
  · simp only [steps, negStep1, negStep2, negStep3, negStep4]
    rfl
  · decide

/-! ## Claim C3: stack order, CALL and RET -/

/-- C3: Pop removes the front element, so after pushing v1 then v2 onto an
empty stack Pop yields v1 and leaves v2 (FIFO); CALL appends the return
address (the byte after its operand) at the BACK of the entries, and RET
pops the FRONT, so with two pushed return addresses RET returns to the one
pushed first (the oldest frame). -/
theorem C3_stack_fifo_call_ret :
    (∀ v1 v2 : Int,
        Stack.popGo (Stack.push (Stack.push newStack v1) v2) = some (v1, ⟨[v2]⟩)) ∧
    (∀ (o : Orac) (c : CPU), 0 ≤ c.ip → c.ip + 2 < (memSize : Int) →
        c.mem c.ip.toNat = 0x73 →
        stepStack (stepCPU o c) = some (c.stack.entries ++ [c.ip + 3])) ∧
    (∀ (o : Orac) (c : CPU) (a1 a2 : Int), 0 ≤ c.ip → c.ip < (memSize : Int) →
        c.mem c.ip.toNat = 0x72 → c.stack.entries = [a1, a2] →
        stepIp (stepCPU o c) = some (if (memSize : Int) ≤ a1 then 0 else a1) ∧
        stepStack (stepCPU o c) = some [a2]) := by
  refine ⟨fun v1 v2 => rfl, ?_, ?_⟩
  · intro o c h0 h2 hop
    have hfetch : memRead c.mem c.ip = .ok 0x73 := by
      rw [memRead_ok _ _ h0 (by omega), hop]
    have hread := read2Val_ok (bumpIp c) (by show 0 ≤ c.ip + 1; omega)
      (by show c.ip + 1 + 1 < (memSize : Int); omega)
    simp only [stepCPU, execInstr, hfetch, hread, bind, Except.bind]
    simp [stepStack, applyWrap_stack, Stack.push, bumpIp]
    omega
  · intro o c a1 a2 h0 h1 hop hstack
    have hfetch : memRead c.mem c.ip = .ok 0x72 := by
      rw [memRead_ok _ _ h0 h1, hop]
    simp only [stepCPU, execInstr, hfetch, bind, Except.bind]
    simp [Stack.emptyGo, Stack.popGo, hstack, stepIp, stepStack, applyWrap]
    refine ⟨?_, ?_⟩ <;> split <;> rfl

/-- C3 witness: RET with stacked return addresses 11 then 22 jumps to 11 and
leaves 22; CALL from address 0 pushes 3. -/
theorem C3_stack_witness :
    retCPU.stack.entries = [11, 22] ∧
    stepIp (stepCPU (oracZero 0) retCPU) = some 11 ∧
    stepStack (stepCPU (oracZero 0) retCPU) = some [22] ∧
    stepStack (stepCPU (oracZero 0) callCPU) = some [3] := by
  have hret := C3_stack_fifo_call_ret.2.2 (oracZero 0) retCPU 11 22 (by decide)
    (by decide) (by decide) (by decide)
  have hcall := C3_stack_fifo_call_ret.2.1 (oracZero 0) callCPU (by decide)
    (by decide) (by decide)
  refine ⟨by decide, ?_, hret.2, ?_⟩
  · rw [hret.1, if_neg (by decide)]
  · rw [hcall]
    decide

/-! ## Claim C1: wrong-kind register reads -/

/-- C1 counterexample: PEEK and POKE executed with a string-typed address
register do not trap: the handlers read the stale integer slot directly, so
the machine continues normally where the claim demands a fatal diagnostic. -/
theorem C1_peek_poke_no_trap_counterexample :
    (peekStrCPU.regs 1).t = "string" ∧
    stepTrapMsg (stepCPU (oracZero 0) peekStrCPU) = none ∧
    stepOk (stepCPU (oracZero 0) peekStrCPU) = true ∧
    (pokeStrCPU.regs 1).t = "string" ∧
    stepTrapMsg (stepCPU (oracZero 0) pokeStrCPU) = none ∧
    stepOk (stepCPU (oracZero 0) pokeStrCPU) = true := by
  decide

/-- C1 amended: a wrong-kind register read is a fatal error exactly where
the handler fetches the value through GetInt or GetString, which print
their human-readable diagnostic and exit with a non-zero status: proved
for INT_ADD (0x21), INT_PRINT (0x02) and PUSH (0x70), whose operand reads
go through GetInt, and for STRING_PRINT (0x31), which goes through
GetString. It is not a fatal error elsewhere: CMP_IMMEDIATE (0x41) guards
on the register's type tag and merely clears the zero flag when the
register is not an int, POP (0x71) writes its target register without
reading its value, and PEEK (0x60) and POKE (0x61) read the raw integer
slot of the address register with no kind check at all, so these execute
normally on a wrong-kind register, PEEK and POKE using the stale integer
slot as the address. -/
theorem C1_wrong_kind_amended :
    (∀ (o : Orac) (c : CPU), 0 ≤ c.ip → c.ip + 3 < (memSize : Int) →
        c.mem c.ip.toNat = 0x21 →
        c.mem (c.ip.toNat + 2) < 16 →
        (c.regs (c.mem (c.ip.toNat + 2))).t ≠ "int" →
        stepCPU o c = .error (.trap getIntMsg)) ∧
    (∀ (o : Orac) (c : CPU), 0 ≤ c.ip → c.ip + 1 < (memSize : Int) →
        c.mem c.ip.toNat = 0x02 →
        c.mem (c.ip.toNat + 1) < 16 →
        (c.regs (c.mem (c.ip.toNat + 1))).t ≠ "int" →
        stepCPU o c = .error (.trap getIntMsg)) ∧
    (∀ (o : Orac) (c : CPU), 0 ≤ c.ip → c.ip + 1 < (memSize : Int) →
        c.mem c.ip.toNat = 0x70 →
        c.mem (c.ip.toNat + 1) < 16 →
        (c.regs (c.mem (c.ip.toNat + 1))).t ≠ "int" →
        stepCPU o c = .error (.trap getIntMsg)) ∧
    (∀ (o : Orac) (c : CPU), 0 ≤ c.ip → c.ip + 1 < (memSize : Int) →
        c.mem c.ip.toNat = 0x31 →
        c.mem (c.ip.toNat + 1) < 16 →
        (c.regs (c.mem (c.ip.toNat + 1))).t ≠ "string" →
        stepCPU o c = .error (.trap getStringMsg)) ∧
    (∀ (o : Orac) (c : CPU), 0 ≤ c.ip → c.ip + 3 < (memSize : Int) →
        c.mem c.ip.toNat = 0x41 →
        c.mem (c.ip.toNat + 1) < 16 →
        (c.regs (c.mem (c.ip.toNat + 1))).t ≠ "int" →
        stepOk (stepCPU o c) = true ∧
        stepTrapMsg (stepCPU o c) = none ∧
        stepFlag (stepCPU o c) = some false) ∧
    (∀ (o : Orac) (c : CPU) (v : Int) (rest : List Int),
        0 ≤ c.ip → c.ip + 1 < (memSize : Int) →
        c.mem c.ip.toNat = 0x71 →
        c.mem (c.ip.toNat + 1) < 16 →
        c.stack.entries = v :: rest →
        stepOk (stepCPU o c) = true ∧
        stepTrapMsg (stepCPU o c) = none ∧
        stepRegAt (stepCPU o c) (c.mem (c.ip.toNat + 1))
          = some ((c.regs (c.mem (c.ip.toNat + 1))).setIntGo v)) ∧
    (∀ (o : Orac) (c : CPU), 0 ≤ c.ip → c.ip + 2 < (memSize : Int) →
        c.mem c.ip.toNat = 0x60 →
        c.mem (c.ip.toNat + 1) < 16 → c.mem (c.ip.toNat + 2) < 16 →
        (c.regs (c.mem (c.ip.toNat + 2))).t = "string" →
        0 ≤ (c.regs (c.mem (c.ip.toNat + 2))).i →
        (c.regs (c.mem (c.ip.toNat + 2))).i < (memSize : Int) →
        stepOk (stepCPU o c) = true ∧
        stepTrapMsg (stepCPU o c) = none ∧
        stepRegAt (stepCPU o c) (c.mem (c.ip.toNat + 1))
          = some ((c.regs (c.mem (c.ip.toNat + 1))).setIntGo
              ((c.mem (c.regs (c.mem (c.ip.toNat + 2))).i.toNat : Nat) : Int))) ∧
    (∀ (o : Orac) (c : CPU), 0 ≤ c.ip → c.ip + 2 < (memSize : Int) →
        c.mem c.ip.toNat = 0x61 →
        c.mem (c.ip.toNat + 1) < 16 → c.mem (c.ip.toNat + 2) < 16 →
        (c.regs (c.mem (c.ip.toNat + 2))).t = "string" →
        0 ≤ (c.regs (c.mem (c.ip.toNat + 2))).i →
        (c.regs (c.mem (c.ip.toNat + 2))).i < (memSize : Int) →
        stepOk (stepCPU o c) = true ∧
        stepTrapMsg (stepCPU o c) = none ∧
        (∀ x, stepMemAt (stepCPU o c) x
          = some (storeByte c.mem (c.regs (c.mem (c.ip.toNat + 2))).i.toNat
              (goByte (c.regs (c.mem (c.ip.toNat + 1))).i) x))) := by
  refine ⟨?_, ?_, ?_, ?_, ?_, ?_, ?_, ?_⟩
  · intro o c h0 h3 hop ha hta
    have hfetch : memRead c.mem c.ip = .ok 0x21 := by
      rw [memRead_ok _ _ h0 (by omega), hop]
    have e1 : (c.ip + 1).toNat = c.ip.toNat + 1 := by omega
    have e2 : (c.ip + 1 + 1).toNat = c.ip.toNat + 2 := by omega
    have e3 : (c.ip + 1 + 1 + 1).toNat = c.ip.toNat + 3 := by omega
    have hn1 := nextByte_ok c (by omega) (by omega)
    have hn2 := nextByte_ok (bumpIp c) (by show 0 ≤ c.ip + 1 + 1; omega)
      (by show c.ip + 1 + 1 < (memSize : Int); omega)
    have hn3 := nextByte_ok (bumpIp (bumpIp c)) (by show 0 ≤ c.ip + 1 + 1 + 1; omega)
      (by show c.ip + 1 + 1 + 1 < (memSize : Int); omega)
    simp only [bumpIp] at hn2 hn3
    rw [e1] at hn1
    rw [e2] at hn2
    rw [e3] at hn3
    simp only [stepCPU, execInstr, hfetch, hn1, hn2, hn3, bind, Except.bind, bumpIp]
    try dsimp only
    rw [getReg_ok _ _ ha]
    try dsimp only
    rw [getInt_err _ hta]
  · intro o c h0 h1 hop hb hta
    have hfetch : memRead c.mem c.ip = .ok 0x02 := by
      rw [memRead_ok _ _ h0 (by omega), hop]
    have e1 : (c.ip + 1).toNat = c.ip.toNat + 1 := by omega
    have hn1 := nextByte_ok c (by omega) (by omega)
    rw [e1] at hn1
    simp only [stepCPU, execInstr, hfetch, hn1, bind, Except.bind, bumpIp]
    try dsimp only
    rw [getReg_ok _ _ hb]
    try dsimp only
    rw [getInt_err _ hta]
  · intro o c h0 h1 hop hb hta
    have hfetch : memRead c.mem c.ip = .ok 0x70 := by
      rw [memRead_ok _ _ h0 (by omega), hop]
    have e1 : (c.ip + 1).toNat = c.ip.toNat + 1 := by omega
    have hn1 := nextByte_ok c (by omega) (by omega)
    rw [e1] at hn1
    simp only [stepCPU, execInstr, hfetch, hn1, bind, Except.bind, bumpIp]
    try dsimp only
    rw [getReg_ok _ _ hb]
    try dsimp only
    rw [getInt_err _ hta]
  · intro o c h0 h1 hop hb hta
    have hfetch : memRead c.mem c.ip = .ok 0x31 := by
      rw [memRead_ok _ _ h0 (by omega), hop]
    have e1 : (c.ip + 1).toNat = c.ip.toNat + 1 := by omega
    have hn1 := nextByte_ok c (by omega) (by omega)
    rw [e1] at hn1
    simp only [stepCPU, execInstr, hfetch, hn1, bind, Except.bind, bumpIp]
    try dsimp only
    rw [getReg_ok _ _ hb]
    try dsimp only
    rw [getString_err _ hta]
  · intro o c h0 h3 hop hb hta
    have hfetch : memRead c.mem c.ip = .ok 0x41 := by
      rw [memRead_ok _ _ h0 (by omega), hop]
    have e1 : (c.ip + 1).toNat = c.ip.toNat + 1 := by omega
    have e2 : (c.ip + 1 + 1).toNat = c.ip.toNat + 2 := by omega
    have e3 : (c.ip + 1 + 1 + 1).toNat = c.ip.toNat + 3 := by omega
    have hn1 := nextByte_ok c (by omega) (by omega)
    have hread := read2Val_ok (bumpIp (bumpIp c)) (by show 0 ≤ c.ip + 1 + 1; omega)
      (by show c.ip + 1 + 1 + 1 < (memSize : Int); omega)
    simp only [bumpIp] at hread
    rw [e1] at hn1
    rw [e2, e3] at hread
    simp only [stepCPU, execInstr, hfetch, hn1, hread, bind, Except.bind, bumpIp]
    try dsimp only
    rw [getReg_ok _ _ hb]
    try dsimp only
    refine ⟨rfl, rfl, ?_⟩
    dsimp only [stepFlag]
    rw [applyWrap_flag]
    try dsimp only
    refine congrArg some ?_
    rw [decide_eq_false_iff_not]
    rintro ⟨h1, _⟩
    exact hta h1
  · intro o c v rest h0 h1 hop hb hstack
    have hfetch : memRead c.mem c.ip = .ok 0x71 := by
      rw [memRead_ok _ _ h0 (by omega), hop]
    have e1 : (c.ip + 1).toNat = c.ip.toNat + 1 := by omega
    have hn1 := nextByte_ok c (by omega) (by omega)
    rw [e1] at hn1
    have hemp : c.stack.emptyGo = false := by
      simp [Stack.emptyGo, hstack]
    have hpop : c.stack.popGo = some (v, ⟨rest⟩) := by
      unfold Stack.popGo
      rw [hstack]
    simp only [stepCPU, execInstr, hfetch, hn1, bind, Except.bind, bumpIp]
    try dsimp only
    rw [hemp]
    try dsimp only
    rw [if_neg (by simp)]
    rw [hpop]
    try dsimp only
    rw [getReg_ok _ _ hb]
    try dsimp only
    rw [setReg_ok _ _ _ hb]
    try dsimp only
    refine ⟨rfl, rfl, ?_⟩
    dsimp only [stepRegAt]
    rw [applyWrap_regs]
    try dsimp only
    rw [if_pos rfl]
  · intro o c h0 h2 hop hr1 hr2 hts hlo hhi
    have hfetch : memRead c.mem c.ip = .ok 0x60 := by
      rw [memRead_ok _ _ h0 (by omega), hop]
    have e1 : (c.ip + 1).toNat = c.ip.toNat + 1 := by omega
    have e2 : (c.ip + 1 + 1).toNat = c.ip.toNat + 2 := by omega
    have hn1 := nextByte_ok c (by omega) (by omega)
    have hn2 := nextByte_ok (bumpIp c) (by show 0 ≤ c.ip + 1 + 1; omega)
      (by show c.ip + 1 + 1 < (memSize : Int); omega)
    simp only [bumpIp] at hn2
    rw [e1] at hn1
    rw [e2] at hn2
    simp only [stepCPU, execInstr, hfetch, hn1, hn2, bind, Except.bind, bumpIp]
    try dsimp only
    rw [getReg_ok _ _ hr2]
    try dsimp only
    rw [memRead_ok _ _ hlo hhi]
    try dsimp only
    rw [getReg_ok _ _ hr1]
    try dsimp only
    rw [setReg_ok _ _ _ hr1]
    dsimp only [stepOk, stepTrapMsg, stepRegAt, applyWrap_regs]
    simp [applyWrap_regs]
  · intro o c h0 h2 hop hr1 hr2 hts hlo hhi
    have hfetch : memRead c.mem c.ip = .ok 0x61 := by
      rw [memRead_ok _ _ h0 (by omega), hop]
    have e1 : (c.ip + 1).toNat = c.ip.toNat + 1 := by omega
    have e2 : (c.ip + 1 + 1).toNat = c.ip.toNat + 2 := by omega
    have hn1 := nextByte_ok c (by omega) (by omega)
    have hn2 := nextByte_ok (bumpIp c) (by show 0 ≤ c.ip + 1 + 1; omega)
      (by show c.ip + 1 + 1 < (memSize : Int); omega)
    simp only [bumpIp] at hn2
    rw [e1] at hn1
    rw [e2] at hn2
    simp only [stepCPU, execInstr, hfetch, hn1, hn2, bind, Except.bind, bumpIp]
    try dsimp only
    rw [getReg_ok _ _ hr2]
    try dsimp only
    rw [getReg_ok _ _ hr1]
    try dsimp only
    rw [memWrite_ok _ _ _ hlo hhi]
    dsimp only [stepOk, stepTrapMsg, stepMemAt]
    simp [applyWrap_mem]

/-- C1 witness: the eight amended statements instantiated on concrete
machines holding the wrong register kind. -/
theorem C1_wrong_kind_witness :
    stepCPU (oracZero 0) addStrCPU = .error (.trap getIntMsg) ∧
    stepCPU (oracZero 0) printStrCPU = .error (.trap getIntMsg) ∧
    stepCPU (oracZero 0) pushStrCPU = .error (.trap getIntMsg) ∧
    stepCPU (oracZero 0) sprintIntCPU = .error (.trap getStringMsg) ∧
    stepFlag (stepCPU (oracZero 0) cmpImmStrCPU) = some false ∧
    stepRegAt (stepCPU (oracZero 0) popStrCPU) 1
      = some ((popStrCPU.regs 1).setIntGo 9) ∧
    stepOk (stepCPU (oracZero 0) peekStrCPU) = true ∧
    stepOk (stepCPU (oracZero 0) pokeStrCPU) = true := by
  refine ⟨?_, ?_, ?_, ?_, ?_, ?_, ?_, ?_⟩
  · exact C1_wrong_kind_amended.1 (oracZero 0) addStrCPU (by decide) (by decide)
      (by decide) (by decide) (by decide)
  · exact C1_wrong_kind_amended.2.1 (oracZero 0) printStrCPU (by decide) (by decide)
      (by decide) (by decide) (by decide)
  · exact C1_wrong_kind_amended.2.2.1 (oracZero 0) pushStrCPU (by decide) (by decide)
      (by decide) (by decide) (by decide)
  · exact C1_wrong_kind_amended.2.2.2.1 (oracZero 0) sprintIntCPU (by decide)
      (by decide) (by decide) (by decide) (by decide)
  · exact (C1_wrong_kind_amended.2.2.2.2.1 (oracZero 0) cmpImmStrCPU (by decide)
      (by decide) (by decide) (by decide) (by decide)).2.2
  · exact (C1_wrong_kind_amended.2.2.2.2.2.1 (oracZero 0) popStrCPU 9 [] (by decide)
      (by decide) (by decide) (by decide) (by decide)).2.2
  · exact (C1_wrong_kind_amended.2.2.2.2.2.2.1 (oracZero 0) peekStrCPU (by decide)
      (by decide) (by decide) (by decide) (by decide) (by decide) (by decide)
      (by decide)).1
  · exact (C1_wrong_kind_amended.2.2.2.2.2.2.2 (oracZero 0) pokeStrCPU (by decide)
      (by decide) (by decide) (by decide) (by decide) (by decide) (by decide)
      (by decide)).1

/-! ## Claim C9: SUB only ever sets the zero flag -/

/-- C9: SUB (0x22) with integer operands keeps memory, the stack, every
register other than the destination, and prints nothing; the zero flag
becomes true when the result is at most zero and is otherwise left exactly
as it was, so a flag that is already true stays true even when the result
is strictly positive, and the flag can only change from false to true. -/
theorem C9_sub_only_sets_flag :
    ∀ (o : Orac) (c : CPU), 0 ≤ c.ip → c.ip + 3 < (memSize : Int) →
      c.mem c.ip.toNat = 0x22 →
      c.mem (c.ip.toNat + 1) < 16 → c.mem (c.ip.toNat + 2) < 16 →
      c.mem (c.ip.toNat + 3) < 16 →
      (c.regs (c.mem (c.ip.toNat + 2))).t = "int" →
      (c.regs (c.mem (c.ip.toNat + 3))).t = "int" →
      stepOk (stepCPU o c) = true ∧
      stepOut (stepCPU o c) = some "" ∧
      (∀ x, stepMemAt (stepCPU o c) x = some (c.mem x)) ∧
      stepStack (stepCPU o c) = some c.stack.entries ∧
      (∀ r, r ≠ c.mem (c.ip.toNat + 1) →
        stepRegAt (stepCPU o c) r = some (c.regs r)) ∧
      stepFlag (stepCPU o c)
        = some (if goSub (c.regs (c.mem (c.ip.toNat + 2))).i
              (c.regs (c.mem (c.ip.toNat + 3))).i ≤ 0 then true else c.flagZ) ∧
      (c.flagZ = true → stepFlag (stepCPU o c) = some true) := by
  intro o c h0 h3 hop hd ha hb hta htb
  have hfetch : memRead c.mem c.ip = .ok 0x22 := by
    rw [memRead_ok _ _ h0 (by omega), hop]
  have e1 : (c.ip + 1).toNat = c.ip.toNat + 1 := by omega
  have e2 : (c.ip + 1 + 1).toNat = c.ip.toNat + 2 := by omega
  have e3 : (c.ip + 1 + 1 + 1).toNat = c.ip.toNat + 3 := by omega
  have hn1 := nextByte_ok c (by omega) (by omega)
  have hn2 := nextByte_ok (bumpIp c) (by show 0 ≤ c.ip + 1 + 1; omega)
    (by show c.ip + 1 + 1 < (memSize : Int); omega)
  have hn3 := nextByte_ok (bumpIp (bumpIp c)) (by show 0 ≤ c.ip + 1 + 1 + 1; omega)
    (by show c.ip + 1 + 1 + 1 < (memSize : Int); omega)
  simp only [bumpIp] at hn2 hn3
  rw [e1] at hn1
  rw [e2] at hn2
  rw [e3] at hn3
  simp only [stepCPU, execInstr, hfetch, hn1, hn2, hn3, bind, Except.bind, bumpIp]
  try dsimp only
  rw [getReg_ok _ _ ha]
  try dsimp only
  rw [getInt_ok _ hta]
  try dsimp only
  rw [getReg_ok _ _ hb]
  try dsimp only
  rw [getInt_ok _ htb]
  try dsimp only
  rw [getReg_ok _ _ hd]
  try dsimp only
  rw [setReg_ok _ _ _ hd]
  try dsimp only
  rw [getReg_ok _ _ hd]
  try dsimp only
  simp only [Register.setIntGo]
  try dsimp only
  refine ⟨?_, ?_, ?_, ?_, ?_, ?_, ?_⟩
  · rfl
  · rfl
  · intro x
    dsimp only [stepMemAt]
    rw [applyWrap_mem]
    repeat' split
    all_goals first | rfl | simp_all
  · dsimp only [stepStack]
    rw [applyWrap_stack]
    repeat' split
    all_goals first | rfl | simp_all
  · intro r hne
    dsimp only [stepRegAt]
    rw [applyWrap_regs]
    repeat' split
    all_goals first | rfl | (dsimp only; rw [if_neg hne]) | simp_all
  · dsimp only [stepFlag]
    rw [applyWrap_flag]
    repeat' split
    all_goals first | rfl | simp_all
  · intro hz
    dsimp only [stepFlag]
    rw [applyWrap_flag]
    repeat' split
    all_goals simp_all

/-- C9 witness: SUB R0, R1, R2 on a machine with R1 = 5, R2 = 3 (result 2,
strictly positive) and a zero flag that is already set leaves the flag set. -/
theorem C9_sub_witness :
    subPosCPU.flagZ = true ∧
    (0 : Int) < goSub (subPosCPU.regs (subPosCPU.mem 2)).i
      (subPosCPU.regs (subPosCPU.mem 3)).i ∧
    stepFlag (stepCPU (oracZero 0) subPosCPU) = some true := by
  refine ⟨rfl, by decide, ?_⟩
  exact (C9_sub_only_sets_flag (oracZero 0) subPosCPU (by decide) (by decide)
    (by decide) (by decide) (by decide) (by decide) (by decide) (by decide)).2.2.2.2.2.2
    rfl

/-! ## Claim C6: program image loading -/

/-- Pointwise value of the LoadBytes copy loop: data byte a - i when a lies
in the copied window, the prior memory elsewhere. -/
theorem copyFrom_at (data : List Nat) : ∀ (m : Nat → Nat) (i a : Nat),
    copyFrom m data i a
      = if i ≤ a ∧ a < i + data.length then data.getD (a - i) 0 else m a := by
  induction data with
  | nil =>
      intro m i a
      simp only [copyFrom, List.length_nil]
      rw [if_neg (by omega)]
  | cons b rest ih =>
      intro m i a
      simp only [copyFrom, List.length_cons]
      rw [ih]
      by_cases h1 : a = i
      · subst h1
        rw [if_neg (by omega), if_pos (by omega)]
        simp [storeByte]
      · by_cases h2 : i + 1 ≤ a ∧ a < i + 1 + rest.length
        · rw [if_pos h2, if_pos (by omega)]
          have hstep : a - i = (a - (i + 1)) + 1 := by omega
          rw [hstep]
          simp
        · rw [if_neg h2, if_neg (by omega)]
          simp [storeByte, h1]

/-- C6: LoadBytes rejects an image of 0xFFFF bytes or more with the
diagnostic trap; on a fresh machine an image of 0xFFFE bytes or fewer is
accepted, its bytes land at addresses 0 up to its length, and every
remaining memory byte is zero. -/
theorem C6_load_bounds :
    (∀ (c : CPU) (data : List Nat), memSize ≤ data.length →
      loadBytes c data = .error (.trap "Program too large for RAM!\n")) ∧
    (∀ (data : List Nat), data.length < memSize →
      loadOk (loadBytes newCPU data) = true ∧
      (∀ a, a < data.length →
        loadMemAt (loadBytes newCPU data) a = some (data.getD a 0)) ∧
      (∀ a, data.length ≤ a → loadMemAt (loadBytes newCPU data) a = some 0)) := by
  constructor
  · intro c data h
    unfold loadBytes
    rw [if_pos h]
  · intro data h
    unfold loadBytes
    rw [if_neg (by omega)]
    refine ⟨rfl, ?_, ?_⟩
    · intro a hlt
      dsimp only [loadMemAt]
      rw [copyFrom_at]
      rw [if_pos (by omega), Nat.sub_zero]
    · intro a hge
      dsimp only [loadMemAt]
      rw [copyFrom_at]
      rw [if_neg (by omega)]
      rfl

/-- C6 witness: a 0xFFFF-byte image is rejected with the diagnostic; the
two-byte image 07 08 is accepted, lands at addresses 0 and 1, and address 2
is zero. -/
theorem C6_load_witness :
    loadBytes newCPU (List.replicate 0xFFFF 0)
      = .error (.trap "Program too large for RAM!\n") ∧
    loadOk (loadBytes newCPU [7, 8]) = true ∧
    loadMemAt (loadBytes newCPU [7, 8]) 0 = some 7 ∧
    loadMemAt (loadBytes newCPU [7, 8]) 1 = some 8 ∧
    loadMemAt (loadBytes newCPU [7, 8]) 2 = some 0 := by
  refine ⟨?_, ?_, ?_, ?_, ?_⟩
  · exact C6_load_bounds.1 newCPU _ (by rw [List.length_replicate]; exact Nat.le_refl _)
  · exact (C6_load_bounds.2 [7, 8] (by decide)).1
  · simpa using (C6_load_bounds.2 [7, 8] (by decide)).2.1 0 (by decide)
  · simpa using (C6_load_bounds.2 [7, 8] (by decide)).2.1 1 (by decide)
  · exact (C6_load_bounds.2 [7, 8] (by decide)).2.2 2 (by decide)

/-! ## Claim C7: MEMCPY address wrap -/

/-- The claim-side copy depends on its start addresses only through their
residues modulo 0xFFFF. -/
theorem memcpyClaim_congr (n : Nat) : ∀ (m : Nat → Nat) (d d2 s s2 : Nat),
    d % memSize = d2 % memSize → s % memSize = s2 % memSize →
    memcpyClaim m d s n = memcpyClaim m d2 s2 n := by
  induction n with
  | zero => intro m d d2 s s2 _ _; rfl
  | succ k ih =>
      intro m d d2 s s2 hd hs
      simp only [memcpyClaim]
      rw [hd, hs]
      exact ih _ _ _ _ _
        (by rw [Nat.add_mod d 1, hd, ← Nat.add_mod])
        (by rw [Nat.add_mod s 1, hs, ← Nat.add_mod])

/-- Bind of the Except monad on an ok value. -/
theorem bindOkGosc {α β : Type} (a : α) (f : α → Except Fatal β) :
    (bind (Except.ok a) f : Except Fatal β) = f a := rfl

/-- For start addresses in [0, 0xFFFF] the reset-to-zero copy loop of the
source computes exactly the modulo-0xFFFF copy of the claim: in this range
resetting an address that reached 0xFFFF agrees with reducing it modulo
0xFFFF, and the addresses stay in range as they advance. -/
theorem memcpyLoop_claim (n : Nat) : ∀ (m : Nat → Nat) (d s : Int),
    0 ≤ d → d ≤ (memSize : Int) → 0 ≤ s → s ≤ (memSize : Int) →
    memcpyLoop m d s n = .ok (memcpyClaim m d.toNat s.toNat n) := by
  induction n with
  | zero => intro m d s _ _ _ _; rfl
  | succ k ih =>
      intro m d s hd0 hd1 hs0 hs1
      have hD : (if (memSize : Int) ≤ d then 0 else d)
          = ((d.toNat % memSize : Nat) : Int) := by
        split
        · have hde : d = (memSize : Int) := le_antisymm hd1 (by assumption)
          subst hde
          rw [Int.toNat_natCast, Nat.mod_self]
          rfl
        · have hlt : d.toNat < memSize := by omega
          rw [Nat.mod_eq_of_lt hlt]
          omega
      have hS : (if (memSize : Int) ≤ s then 0 else s)
          = ((s.toNat % memSize : Nat) : Int) := by
        split
        · have hse : s = (memSize : Int) := le_antisymm hs1 (by assumption)
          subst hse
          rw [Int.toNat_natCast, Nat.mod_self]
          rfl
        · have hlt : s.toNat < memSize := by omega
          rw [Nat.mod_eq_of_lt hlt]
          omega
      have hmr : memRead m ((s.toNat % memSize : Nat) : Int)
          = .ok (m (((s.toNat % memSize : Nat) : Int)).toNat) :=
        memRead_ok _ _ (Int.natCast_nonneg _)
          (by exact_mod_cast Nat.mod_lt _ (by decide))
      have hmw : ∀ v, memWrite m ((d.toNat % memSize : Nat) : Int) v
          = .ok (storeByte m (((d.toNat % memSize : Nat) : Int)).toNat v) :=
        fun v => memWrite_ok _ _ _ (Int.natCast_nonneg _)
          (by exact_mod_cast Nat.mod_lt _ (by decide))
      simp only [memcpyLoop, memcpyClaim, hD, hS, hmr, hmw, bindOkGosc,
        Int.toNat_natCast]
      rw [show ((d.toNat % memSize : Nat) : Int) + 1
            = (((d.toNat % memSize) + 1 : Nat) : Int) by push_cast; ring,
          show ((s.toNat % memSize : Nat) : Int) + 1
            = (((s.toNat % memSize) + 1 : Nat) : Int) by push_cast; ring]
      rw [ih _ _ _ (Int.natCast_nonneg _)
        (by exact_mod_cast Nat.mod_lt _ (by decide))
        (Int.natCast_nonneg _)
        (by exact_mod_cast Nat.mod_lt _ (by decide))]
      simp only [Int.toNat_natCast]
      exact congrArg Except.ok (memcpyClaim_congr k _ _ _ _ _
        (by rw [Nat.add_mod (d.toNat % memSize) 1, Nat.mod_mod_of_dvd _ dvd_rfl,
              ← Nat.add_mod])
        (by rw [Nat.add_mod (s.toNat % memSize) 1, Nat.mod_mod_of_dvd _ dvd_rfl,
              ← Nat.add_mod]))

/-- C7 amended: MEMCPY (0x62) with integer-typed operand registers copies
the length register's count of bytes one at a time; for start addresses in
[0, 0xFFFF] (in particular whenever an advancing address reaches 0xFFFF and
continues from 0) every read and write address equals the claimed
modulo-0xFFFF address, while a start address strictly above 0xFFFF is
instead reset to 0 rather than reduced modulo 0xFFFF. -/
theorem C7_memcpy_wrap_amended :
    ∀ (o : Orac) (c : CPU), 0 ≤ c.ip → c.ip + 3 < (memSize : Int) →
      c.mem c.ip.toNat = 0x62 →
      c.mem (c.ip.toNat + 1) < 16 → c.mem (c.ip.toNat + 2) < 16 →
      c.mem (c.ip.toNat + 3) < 16 →
      (c.regs (c.mem (c.ip.toNat + 1))).t = "int" →
      (c.regs (c.mem (c.ip.toNat + 2))).t = "int" →
      (c.regs (c.mem (c.ip.toNat + 3))).t = "int" →
      0 ≤ (c.regs (c.mem (c.ip.toNat + 1))).i →
      (c.regs (c.mem (c.ip.toNat + 1))).i ≤ (memSize : Int) →
      0 ≤ (c.regs (c.mem (c.ip.toNat + 2))).i →
      (c.regs (c.mem (c.ip.toNat + 2))).i ≤ (memSize : Int) →
      stepOk (stepCPU o c) = true ∧
      (∀ x, stepMemAt (stepCPU o c) x
        = some (memcpyClaim c.mem (c.regs (c.mem (c.ip.toNat + 1))).i.toNat
            (c.regs (c.mem (c.ip.toNat + 2))).i.toNat
            (c.regs (c.mem (c.ip.toNat + 3))).i.toNat x)) := by
  intro o c h0 h3 hop hb1 hb2 hb3 ht1 ht2 ht3 hd0 hd1 hs0 hs1
  have hfetch : memRead c.mem c.ip = .ok 0x62 := by
    rw [memRead_ok _ _ h0 (by omega), hop]
  have e1 : (c.ip + 1).toNat = c.ip.toNat + 1 := by omega
  have e2 : (c.ip + 1 + 1).toNat = c.ip.toNat + 2 := by omega
  have e3 : (c.ip + 1 + 1 + 1).toNat = c.ip.toNat + 3 := by omega
  have hn1 := nextByte_ok c (by omega) (by omega)
  have hn2 := nextByte_ok (bumpIp c) (by show 0 ≤ c.ip + 1 + 1; omega)
    (by show c.ip + 1 + 1 < (memSize : Int); omega)
  have hn3 := nextByte_ok (bumpIp (bumpIp c)) (by show 0 ≤ c.ip + 1 + 1 + 1; omega)
    (by show c.ip + 1 + 1 + 1 < (memSize : Int); omega)
  simp only [bumpIp] at hn2 hn3
  rw [e1] at hn1
  rw [e2] at hn2
  rw [e3] at hn3
  simp only [stepCPU, execInstr, hfetch, hn1, hn2, hn3, bind, Except.bind, bumpIp]
  try dsimp only
  rw [getReg_ok _ _ hb2]
  try dsimp only
  rw [getInt_ok _ ht2]
  try dsimp only
  rw [getReg_ok _ _ hb1]
  try dsimp only
  rw [getInt_ok _ ht1]
  try dsimp only
  rw [getReg_ok _ _ hb3]
  try dsimp only
  rw [getInt_ok _ ht3]
  try dsimp only
  rw [memcpyLoop_claim _ _ _ _ hd0 hd1 hs0 hs1]
  try dsimp only
  refine ⟨rfl, fun x => ?_⟩
  dsimp only [stepMemAt]
  rw [applyWrap_mem]

/-- C7 counterexample: with the source address register holding 0x10000,
the source resets the address to 0 and copies the byte at address 0 (the
opcode byte 0x62) to the destination, while the claimed modulo-0xFFFF
addressing would copy the byte at address 1 (0x00): the destination byte
differs from the claimed value. -/
theorem C7_memcpy_mod_counterexample :
    stepMemAt (stepCPU (oracZero 0) memcpyBigCPU) 100 = some 0x62 ∧
    memcpyClaim memcpyBigCPU.mem 100 0x10000 1 100 = 0x00 ∧
    (0x62 : Nat) ≠ 0x00 := by
  refine ⟨by decide, by decide, by decide⟩

/-- C7 witness: an in-range copy of the two bytes AA BB from address 4 to
address 10 matches the claim-side modulo copy; the first copied byte is AA. -/
theorem C7_memcpy_witness :
    stepMemAt (stepCPU (oracZero 0) memcpySmallCPU) 10
      = some (memcpyClaim memcpySmallCPU.mem 10 4 2 10) ∧
    memcpyClaim memcpySmallCPU.mem 10 4 2 10 = 0xAA := by
  constructor
  · exact (C7_memcpy_wrap_amended (oracZero 0) memcpySmallCPU (by decide) (by decide)
      (by decide) (by decide) (by decide) (by decide) (by decide) (by decide)
      (by decide) (by decide) (by decide) (by decide) (by decide)).2 10
  · decide

end Gosc
